import Mathlib

/-!
Verification of the Pathfinding-Villager grid and path-search core.

This file gives a shallow embedding of the two core modules of the
repository, grid_map.py (class GridMap) and pathfinding.py (class
PathFinder), and proves properties of the embedded definitions.

Modelling conventions:
* A board position is a pair of integers (row, column), as in the Python
  tuples; queries may be out of bounds, so coordinates are Int.
* Tiles are the strings of the source: "" (empty land), "T" (tilled),
  "F" (fence).
* Grid dimensions are natural numbers (the programs construct grids with
  nonnegative sizes); the grid contents are a list of rows, each a list
  of tile strings, matching the Python list of lists.
* Python dict and set objects are modelled as functions to Option and
  Bool; the heapq priority queue is modelled as a list of entries from
  which the lexicographically least element is popped, which is the
  observable behaviour of heapq on tuples with distinct counters.
* Wall-clock time cannot be computed; each search takes the measured
  elapsed duration of the call as an explicit parameter and writes it
  to the pathfinding_time field exactly where the source writes
  time.time() - start_time.
* random.randint draws are passed as an explicit list of selections.
* Float arithmetic on f-scores is idealised as exact arithmetic: an
  f-score of the form g + sqrt s (g, s natural) is represented by the
  pair (g, s) and compared exactly.  Manhattan and Chebyshev scores are
  integer valued, so for them this is not an idealisation at all.
-/

abbrev Pos := Int × Int

/-- Embedding of grid_map.py, class GridMap. -/
structure GridMap where
  columns : Nat
  rows : Nat
  grid : List (List String)
deriving Repr, DecidableEq

namespace GridMap

/-- GridMap.__init__: a rows-by-columns board of empty land. -/
def init (columns rows : Nat) : GridMap :=
  ⟨columns, rows, List.replicate rows (List.replicate columns "")⟩

/-- Reading self.grid[row][col] for indices already known to be in range
(out-of-range reads default to the empty tile; the source never performs
them because is_valid_position is always checked first). -/
def tileAt (gm : GridMap) (row col : Nat) : String :=
  (((gm.grid.get? row).getD []).get? col).getD ""

/-- Writing self.grid[row][col] = tile_type. -/
def writeAt (gm : GridMap) (row col : Nat) (tile_type : String) : GridMap :=
  { gm with grid := gm.grid.set row (((gm.grid.get? row).getD []).set col tile_type) }

/-- GridMap.is_valid_position. -/
def is_valid_position (gm : GridMap) (row col : Int) : Bool :=
  0 ≤ row && row < (gm.rows : Int) && 0 ≤ col && col < (gm.columns : Int)

/-- GridMap.set_tile: returns the success flag together with the updated
grid (the Python method mutates self.grid in place). -/
def set_tile (gm : GridMap) (row col : Int) (tile_type : String) : Bool × GridMap :=
  if ¬ gm.is_valid_position row col then
    (false, gm)
  else if ¬ (tile_type = "" ∨ tile_type = "T" ∨ tile_type = "F") then
    (false, gm)
  else
    (true, gm.writeAt row.toNat col.toNat tile_type)

/-- GridMap.get_tile. -/
def get_tile (gm : GridMap) (row col : Int) : Option String :=
  if ¬ gm.is_valid_position row col then none
  else some (gm.tileAt row.toNat col.toNat)

/-- GridMap.is_walkable. -/
def is_walkable (gm : GridMap) (row col : Int) : Bool :=
  if ¬ gm.is_valid_position row col then false
  else gm.tileAt row.toNat col.toNat != "F"

/-- GridMap.find_tilled_tiles: row-major scan for "T" tiles. -/
def find_tilled_tiles (gm : GridMap) : List Pos :=
  (List.range gm.rows).flatMap fun row =>
    (List.range gm.columns).filterMap fun col =>
      if gm.tileAt row col = "T" then some ((row : Int), (col : Int)) else none

/-- One iteration of the loop in GridMap.generate_random_obstacles:
place a fence at the drawn cell unless it is tilled. -/
def place_obstacle (gm : GridMap) (sel : Nat × Nat) : GridMap :=
  if gm.tileAt sel.1 sel.2 ≠ "T" then gm.writeAt sel.1 sel.2 "F" else gm

/-- GridMap.generate_random_obstacles: num_fences = int(rows * columns *
fence_density), then that many uniform draws; the draws are supplied as
the selections list (each randint pair is within the grid bounds). -/
def generate_random_obstacles (gm : GridMap) (fence_density : ℚ)
    (selections : List (Nat × Nat)) : GridMap :=
  let num_fences : Nat := (((gm.rows : ℚ) * (gm.columns : ℚ) * fence_density).floor).toNat
  (selections.take num_fences).foldl place_obstacle gm

/-- GridMap.place_tilled_dirt. -/
def place_tilled_dirt (gm : GridMap) (row col : Int) : Bool × GridMap :=
  gm.set_tile row col "T"

/-- GridMap.clear. -/
def clear (gm : GridMap) : GridMap :=
  { gm with grid := List.replicate gm.rows (List.replicate gm.columns "") }

/-- GridMap.get_neighbors: the four cardinal offsets in source order
(up, down, left, right), kept when in bounds. -/
def get_neighbors (gm : GridMap) (row col : Int) : List Pos :=
  ([(-1, 0), (1, 0), (0, -1), (0, 1)] : List (Int × Int)).filterMap fun d =>
    if gm.is_valid_position (row + d.1) (col + d.2) then some (row + d.1, col + d.2)
    else none

/-- Class invariant established by GridMap.__init__ and preserved by all
mutators: the stored list of rows matches the declared dimensions. -/
def Wf (gm : GridMap) : Prop :=
  gm.grid.length = gm.rows ∧ ∀ r ∈ gm.grid, r.length = gm.columns

instance (gm : GridMap) : Decidable gm.Wf := by
  unfold Wf; infer_instance


end GridMap

/-!
Embedding of pathfinding.py, class PathFinder.

Priorities pushed on the heap are float f-scores in the source.  Every
f-score produced by the code is g + h where g is an integer step count
and h is either an integer (Manhattan, Chebyshev) or the square root of
an integer (Euclidean).  An Fval (q, s) denotes the real number
q + sqrt s; comparisons are decided exactly, idealising the float
comparisons of the source.
-/

abbrev Fval := Nat × Nat

namespace Fval

/-- Exact three-way comparison of q1 + sqrt s1 against q2 + sqrt s2 for
the case q1 le q2, by repeated squaring: with d = q2 - q1, the sign of
sqrt s1 - (d + sqrt s2) is decided from s1 versus d^2 + s2 and, when
that is larger, from (s1 - d^2 - s2)^2 versus 4 d^2 s2. -/
def cmpLe (s1 d s2 : Nat) : Ordering :=
  if s1 < d * d + s2 then .lt
  else if s1 = d * d + s2 then (if d = 0 ∨ s2 = 0 then .eq else .lt)
  else
    let e := s1 - (d * d + s2)
    if e * e < 4 * (d * d) * s2 then .lt
    else if e * e = 4 * (d * d) * s2 then .eq
    else .gt

/-- Exact comparison of the reals denoted by two Fvals. -/
def cmp (a b : Fval) : Ordering :=
  if a.1 ≤ b.1 then cmpLe a.2 (b.1 - a.1) b.2
  else (cmpLe b.2 (a.1 - b.1) a.2).swap

/-- Adding an integer g-score to a heuristic value. -/
def addNat (n : Nat) (h : Fval) : Fval := (n + h.1, h.2)

end Fval

/-- A heap entry (f_score, counter, position), as pushed by heapq. -/
abbrev AstarEntry := Fval × Nat × Pos

/-- Strict order on heap entries: f-score first, insertion counter as
tie-break.  Counters are unique, so positions never get compared, which
matches the tuple comparison performed by heapq. -/
def entry_lt (a b : AstarEntry) : Bool :=
  match Fval.cmp a.1 b.1 with
  | .lt => true
  | .gt => false
  | .eq => a.2.1 < b.2.1

/-- Strict order on the integer-priority entries of Dijkstra. -/
def dentry_lt (a b : Nat × Nat × Pos) : Bool :=
  if a.1 < b.1 then true
  else if b.1 < a.1 then false
  else a.2.1 < b.2.1

/-- heapq.heappop: remove and return the least element of the heap (the
first of several equal elements; equality cannot occur on distinct
counters). -/
def popMinBy {α : Type} (lt : α → α → Bool) : List α → Option (α × List α)
  | [] => none
  | e :: rest =>
    match popMinBy lt rest with
    | none => some (e, [])
    | some (m, rest') => if lt m e then some (m, e :: rest') else some (e, rest)

/-- Embedding of pathfinding.py, class PathFinder: the grid reference
and the two per-call statistics fields. -/
structure PathFinder where
  grid_map : GridMap
  visited_nodes : Nat
  pathfinding_time : ℚ
deriving Repr, DecidableEq

namespace PathFinder

/-- PathFinder.__init__. -/
def init (grid_map : GridMap) : PathFinder :=
  ⟨grid_map, 0, 0⟩

/-- PathFinder._heuristic_manhattan (integer valued). -/
def heuristic_manhattan (pos1 pos2 : Pos) : Nat :=
  (pos1.1 - pos2.1).natAbs + (pos1.2 - pos2.2).natAbs

/-- PathFinder._heuristic_euclidean: sqrt of the squared distance,
represented exactly. -/
def heuristic_euclidean (pos1 pos2 : Pos) : Fval :=
  (0, (((pos1.1 - pos2.1) ^ 2 + (pos1.2 - pos2.2) ^ 2).toNat))

/-- PathFinder._heuristic_chebyshev (integer valued). -/
def heuristic_chebyshev (pos1 pos2 : Pos) : Nat :=
  max (pos1.1 - pos2.1).natAbs (pos1.2 - pos2.2).natAbs

/-- PathFinder._get_heuristic: dispatch on the heuristic selector,
defaulting to Manhattan for unrecognised strings. -/
def get_heuristic (pos1 pos2 : Pos) (heuristic_type : String) : Fval :=
  if heuristic_type = "euclidean" then heuristic_euclidean pos1 pos2
  else if heuristic_type = "chebyshev" then (heuristic_chebyshev pos1 pos2, 0)
  else (heuristic_manhattan pos1 pos2, 0)

/-- PathFinder._reconstruct_path: walk the came_from chain from the goal
and return the list reversed; the accumulator builds the reversed list
directly.  The source loop has no bound; the fuel argument is chosen by
the callers large enough that it is never exhausted on the chains the
algorithms produce. -/
def reconstructAux (came_from : Pos → Option Pos) : Nat → Pos → List Pos → List Pos
  | 0, current, acc => current :: acc
  | fuel + 1, current, acc =>
    match came_from current with
    | none => current :: acc
    | some prev => reconstructAux came_from fuel prev (current :: acc)

/-- PathFinder._reconstruct_path. -/
def reconstruct_path (came_from : Pos → Option Pos) (current : Pos) (fuel : Nat) : List Pos :=
  reconstructAux came_from fuel current []

/-- Iteration bound for the search loops (the loops of the source are
bounded by the number of heap insertions; the exact value is
irrelevant to the theorems below, which concern returned results). -/
def search_fuel (gm : GridMap) : Nat :=
  (gm.rows * gm.columns + 1) * (gm.rows * gm.columns + 1) + 1

/-- The mutable state of the while loop of find_path_astar. -/
structure AstarState where
  open_set : List AstarEntry
  counter : Nat
  came_from : Pos → Option Pos
  g_score : Pos → Option Nat
  f_score : Pos → Option Fval
  open_set_hash : Pos → Bool
  visited_nodes : Nat

/-- One iteration of the neighbor loop of find_path_astar: relax a
walkable neighbor of current, recording predecessor, g_score and
f_score on improvement and pushing it when not in the mirror set. -/
def astar_relax (gm : GridMap) (goal : Pos) (heuristic_type : String) (current : Pos)
    (st : AstarState) (neighbor : Pos) : AstarState :=
  if ¬ gm.is_walkable neighbor.1 neighbor.2 then st
  else
    let tentative_g_score := (st.g_score current).getD 0 + 1
    let improve : Bool :=
      match st.g_score neighbor with
      | none => true
      | some g => tentative_g_score < g
    if improve then
      let fn := Fval.addNat tentative_g_score (get_heuristic neighbor goal heuristic_type)
      let st1 : AstarState :=
        { st with
          came_from := fun p => if p = neighbor then some current else st.came_from p
          g_score := fun p => if p = neighbor then some tentative_g_score else st.g_score p
          f_score := fun p => if p = neighbor then some fn else st.f_score p }
      if ¬ st1.open_set_hash neighbor then
        { st1 with
          open_set := st1.open_set ++ [(fn, st1.counter, neighbor)]
          counter := st1.counter + 1
          open_set_hash := fun p => p = neighbor || st1.open_set_hash p }
      else st1
    else st

/-- The neighbor loop of find_path_astar. -/
def astar_visit (gm : GridMap) (goal : Pos) (heuristic_type : String) (current : Pos)
    (st : AstarState) : AstarState :=
  (gm.get_neighbors current.1 current.2).foldl (astar_relax gm goal heuristic_type current) st

/-- The body of the while loop of find_path_astar, applied to the popped
position (the entry has already been removed from the heap): discard the
position from the mirror set when present, count it as visited, test the
goal, and otherwise expand its neighbors. -/
def astar_step (gm : GridMap) (goal : Pos) (heuristic_type : String) (recon_fuel : Nat)
    (current : Pos) (st : AstarState) : AstarState × Option (List Pos) :=
  let st1 :=
    if st.open_set_hash current then
      { st with open_set_hash := fun p => if p = current then false else st.open_set_hash p }
    else st
  let st2 := { st1 with visited_nodes := st1.visited_nodes + 1 }
  if current = goal then
    (st2, some (reconstruct_path st2.came_from current recon_fuel))
  else
    (astar_visit gm goal heuristic_type current st2, none)

/-- The while loop of find_path_astar. -/
def astar_loop (gm : GridMap) (goal : Pos) (heuristic_type : String) (recon_fuel : Nat) :
    Nat → AstarState → Option (List Pos) × Nat
  | 0, st => (none, st.visited_nodes)
  | fuel + 1, st =>
    match popMinBy entry_lt st.open_set with
    | none => (none, st.visited_nodes)
    | some (e, rest) =>
      match astar_step gm goal heuristic_type recon_fuel e.2.2 { st with open_set := rest } with
      | (st', some path) => (some path, st'.visited_nodes)
      | (st', none) => astar_loop gm goal heuristic_type recon_fuel fuel st'

/-- PathFinder.find_path_astar.  The t_elapsed parameter is the measured
duration of the call, written to pathfinding_time exactly where the
source writes time.time() - start_time; the early precondition returns
do not write it. -/
def find_path_astar (pf : PathFinder) (start goal : Pos) (heuristic_type : String)
    (t_elapsed : ℚ) : Option (List Pos) × PathFinder :=
  let pf0 := { pf with visited_nodes := 0 }
  if ¬ pf.grid_map.is_valid_position start.1 start.2 then (none, pf0)
  else if ¬ pf.grid_map.is_valid_position goal.1 goal.2 then (none, pf0)
  else if ¬ pf.grid_map.is_walkable start.1 start.2 then (none, pf0)
  else if ¬ pf.grid_map.is_walkable goal.1 goal.2 then (none, pf0)
  else
    let st0 : AstarState :=
      { open_set := [((0, 0), 0, start)]
        counter := 1
        came_from := fun _ => none
        g_score := fun p => if p = start then some 0 else none
        f_score := fun p =>
          if p = start then some (get_heuristic start goal heuristic_type) else none
        open_set_hash := fun p => p = start
        visited_nodes := 0 }
    let r := astar_loop pf.grid_map goal heuristic_type (search_fuel pf.grid_map)
      (search_fuel pf.grid_map) st0
    (r.1, { pf with visited_nodes := r.2, pathfinding_time := t_elapsed })

/-- The mutable state of the while loop of find_path_dijkstra. -/
structure DijkstraState where
  open_set : List (Nat × Nat × Pos)
  counter : Nat
  came_from : Pos → Option Pos
  cost : Pos → Option Nat
  open_set_hash : Pos → Bool
  visited_nodes : Nat

/-- One iteration of the neighbor loop of find_path_dijkstra. -/
def dijkstra_relax (gm : GridMap) (current : Pos)
    (st : DijkstraState) (neighbor : Pos) : DijkstraState :=
  if ¬ gm.is_walkable neighbor.1 neighbor.2 then st
  else
    let tentative_cost := (st.cost current).getD 0 + 1
    let improve : Bool :=
      match st.cost neighbor with
      | none => true
      | some c => tentative_cost < c
    if improve then
      let st1 : DijkstraState :=
        { st with
          came_from := fun p => if p = neighbor then some current else st.came_from p
          cost := fun p => if p = neighbor then some tentative_cost else st.cost p }
      if ¬ st1.open_set_hash neighbor then
        { st1 with
          open_set := st1.open_set ++ [(tentative_cost, st1.counter, neighbor)]
          counter := st1.counter + 1
          open_set_hash := fun p => p = neighbor || st1.open_set_hash p }
      else st1
    else st

/-- The neighbor loop of find_path_dijkstra. -/
def dijkstra_visit (gm : GridMap) (current : Pos) (st : DijkstraState) : DijkstraState :=
  (gm.get_neighbors current.1 current.2).foldl (dijkstra_relax gm current) st

/-- The body of the while loop of find_path_dijkstra. -/
def dijkstra_step (gm : GridMap) (goal : Pos) (recon_fuel : Nat)
    (current : Pos) (st : DijkstraState) : DijkstraState × Option (List Pos) :=
  let st1 :=
    if st.open_set_hash current then
      { st with open_set_hash := fun p => if p = current then false else st.open_set_hash p }
    else st
  let st2 := { st1 with visited_nodes := st1.visited_nodes + 1 }
  if current = goal then
    (st2, some (reconstruct_path st2.came_from current recon_fuel))
  else
    (dijkstra_visit gm current st2, none)

/-- The while loop of find_path_dijkstra. -/
def dijkstra_loop (gm : GridMap) (goal : Pos) (recon_fuel : Nat) :
    Nat → DijkstraState → Option (List Pos) × Nat
  | 0, st => (none, st.visited_nodes)
  | fuel + 1, st =>
    match popMinBy dentry_lt st.open_set with
    | none => (none, st.visited_nodes)
    | some (e, rest) =>
      match dijkstra_step gm goal recon_fuel e.2.2 { st with open_set := rest } with
      | (st', some path) => (some path, st'.visited_nodes)
      | (st', none) => dijkstra_loop gm goal recon_fuel fuel st'

/-- PathFinder.find_path_dijkstra. -/
def find_path_dijkstra (pf : PathFinder) (start goal : Pos) (t_elapsed : ℚ) :
    Option (List Pos) × PathFinder :=
  let pf0 := { pf with visited_nodes := 0 }
  if ¬ pf.grid_map.is_valid_position start.1 start.2 then (none, pf0)
  else if ¬ pf.grid_map.is_valid_position goal.1 goal.2 then (none, pf0)
  else if ¬ pf.grid_map.is_walkable start.1 start.2 then (none, pf0)
  else if ¬ pf.grid_map.is_walkable goal.1 goal.2 then (none, pf0)
  else
    let st0 : DijkstraState :=
      { open_set := [(0, 0, start)]
        counter := 1
        came_from := fun _ => none
        cost := fun p => if p = start then some 0 else none
        open_set_hash := fun p => p = start
        visited_nodes := 0 }
    let r := dijkstra_loop pf.grid_map goal (search_fuel pf.grid_map)
      (search_fuel pf.grid_map) st0
    (r.1, { pf with visited_nodes := r.2, pathfinding_time := t_elapsed })

/-- The mutable state of the while loop of find_path_greedy_best_first. -/
structure GreedyState where
  open_set : List AstarEntry
  counter : Nat
  came_from : Pos → Option Pos
  visited : Pos → Bool
  visited_nodes : Nat

/-- One iteration of the neighbor loop of find_path_greedy_best_first. -/
def greedy_relax (gm : GridMap) (goal : Pos) (heuristic_type : String) (current : Pos)
    (st : GreedyState) (neighbor : Pos) : GreedyState :=
  if ¬ gm.is_walkable neighbor.1 neighbor.2 then st
  else if ¬ st.visited neighbor then
    { st with
      visited := fun p => p = neighbor || st.visited p
      came_from := fun p => if p = neighbor then some current else st.came_from p
      open_set := st.open_set ++
        [(get_heuristic neighbor goal heuristic_type, st.counter, neighbor)]
      counter := st.counter + 1 }
  else st

/-- The neighbor loop of find_path_greedy_best_first. -/
def greedy_visit (gm : GridMap) (goal : Pos) (heuristic_type : String) (current : Pos)
    (st : GreedyState) : GreedyState :=
  (gm.get_neighbors current.1 current.2).foldl (greedy_relax gm goal heuristic_type current) st

/-- The while loop of find_path_greedy_best_first. -/
def greedy_loop (gm : GridMap) (goal : Pos) (heuristic_type : String) (recon_fuel : Nat) :
    Nat → GreedyState → Option (List Pos) × Nat
  | 0, st => (none, st.visited_nodes)
  | fuel + 1, st =>
    match popMinBy entry_lt st.open_set with
    | none => (none, st.visited_nodes)
    | some (e, rest) =>
      let st1 := { st with open_set := rest, visited_nodes := st.visited_nodes + 1 }
      if e.2.2 = goal then
        (some (reconstruct_path st1.came_from e.2.2 recon_fuel), st1.visited_nodes)
      else
        greedy_loop gm goal heuristic_type recon_fuel fuel
          (greedy_visit gm goal heuristic_type e.2.2 st1)

/-- PathFinder.find_path_greedy_best_first. -/
def find_path_greedy_best_first (pf : PathFinder) (start goal : Pos)
    (heuristic_type : String) (t_elapsed : ℚ) : Option (List Pos) × PathFinder :=
  let pf0 := { pf with visited_nodes := 0 }
  if ¬ pf.grid_map.is_valid_position start.1 start.2 then (none, pf0)
  else if ¬ pf.grid_map.is_valid_position goal.1 goal.2 then (none, pf0)
  else if ¬ pf.grid_map.is_walkable start.1 start.2 then (none, pf0)
  else if ¬ pf.grid_map.is_walkable goal.1 goal.2 then (none, pf0)
  else
    let st0 : GreedyState :=
      { open_set := [(get_heuristic start goal heuristic_type, 0, start)]
        counter := 1
        came_from := fun _ => none
        visited := fun p => p = start
        visited_nodes := 0 }
    let r := greedy_loop pf.grid_map goal heuristic_type (search_fuel pf.grid_map)
      (search_fuel pf.grid_map) st0
    (r.1, { pf with visited_nodes := r.2, pathfinding_time := t_elapsed })

/-- The mutable state of the while loop of find_path_bfs. -/
structure BfsState where
  queue : List Pos
  came_from : Pos → Option Pos
  visited : Pos → Bool

/-- One iteration of the neighbor loop of find_path_bfs. -/
def bfs_relax (gm : GridMap) (current : Pos) (st : BfsState) (neighbor : Pos) : BfsState :=
  if ¬ gm.is_walkable neighbor.1 neighbor.2 then st
  else if ¬ st.visited neighbor then
    { st with
      visited := fun p => p = neighbor || st.visited p
      came_from := fun p => if p = neighbor then some current else st.came_from p
      queue := st.queue ++ [neighbor] }
  else st

/-- The neighbor loop of find_path_bfs. -/
def bfs_visit (gm : GridMap) (current : Pos) (st : BfsState) : BfsState :=
  (gm.get_neighbors current.1 current.2).foldl (bfs_relax gm current) st

/-- The while loop of find_path_bfs (popleft from a FIFO queue). -/
def bfs_loop (gm : GridMap) (goal : Pos) (recon_fuel : Nat) :
    Nat → BfsState → Option (List Pos)
  | 0, _ => none
  | fuel + 1, st =>
    match st.queue with
    | [] => none
    | current :: rest =>
      let st1 := { st with queue := rest }
      if current = goal then
        some (reconstruct_path st1.came_from current recon_fuel)
      else
        bfs_loop gm goal recon_fuel fuel (bfs_visit gm current st1)

/-- PathFinder.find_path_bfs: note that this method touches neither
visited_nodes nor pathfinding_time, so it is a pure function of the
grid and the endpoints. -/
def find_path_bfs (pf : PathFinder) (start goal : Pos) : Option (List Pos) :=
  if ¬ pf.grid_map.is_valid_position start.1 start.2 then none
  else if ¬ pf.grid_map.is_valid_position goal.1 goal.2 then none
  else if ¬ pf.grid_map.is_walkable start.1 start.2 then none
  else if ¬ pf.grid_map.is_walkable goal.1 goal.2 then none
  else
    let st0 : BfsState :=
      { queue := [start]
        came_from := fun _ => none
        visited := fun p => p = start }
    bfs_loop pf.grid_map goal (search_fuel pf.grid_map) (search_fuel pf.grid_map) st0

/-- PathFinder.get_path_length. -/
def get_path_length (path : List Pos) : Nat :=
  if path ≠ [] then path.length - 1 else 0

/-- The statistics dictionary returned by run_pathfinding_with_stats. -/
structure PathStats where
  path : Option (List Pos)
  route_length : Option Nat
  visited_nodes : Nat
  time : ℚ
deriving Repr, DecidableEq

/-- The algorithm dispatch shared by run_pathfinding_with_stats and
find_nearest_tilled: dijkstra, greedy, bfs, with astar as the default;
find_path_bfs leaves the statistics fields of the engine untouched. -/
def choose_algorithm (pf : PathFinder) (start goal : Pos) (algorithm heuristic_type : String)
    (t_elapsed : ℚ) : Option (List Pos) × PathFinder :=
  if algorithm = "dijkstra" then find_path_dijkstra pf start goal t_elapsed
  else if algorithm = "greedy" then
    find_path_greedy_best_first pf start goal heuristic_type t_elapsed
  else if algorithm = "bfs" then (find_path_bfs pf start goal, pf)
  else find_path_astar pf start goal heuristic_type t_elapsed

/-- PathFinder.run_pathfinding_with_stats: the route_length entry is
get_path_length(path) when path is truthy (a nonempty list) and None
otherwise. -/
def run_pathfinding_with_stats (pf : PathFinder) (start goal : Pos)
    (algorithm heuristic_type : String) (t_elapsed : ℚ) : PathStats × PathFinder :=
  let r := choose_algorithm pf start goal algorithm heuristic_type t_elapsed
  ({ path := r.1
     route_length :=
       match r.1 with
       | some p => if p ≠ [] then some (get_path_length p) else none
       | none => none
     visited_nodes := r.2.visited_nodes
     time := r.2.pathfinding_time }, r.2)

/-- PathFinder.find_nearest_tilled: enumerate the tilled tiles in
row-major order, run the selected search to each, and keep the goal
whose path is strictly shorter than the best seen so far.  The
accumulator keeps (goal, path, len path) of the current best together
with the threaded engine state. -/
def find_nearest_tilled (pf : PathFinder) (start : Pos) (heuristic_type algorithm : String)
    (t_elapsed : ℚ) : Option (Pos × List Pos) × PathFinder :=
  let tilled_tiles := pf.grid_map.find_tilled_tiles
  if tilled_tiles = [] then (none, pf)
  else
    let r := tilled_tiles.foldl
      (fun (acc : Option (Pos × List Pos × Nat) × PathFinder) tilled_pos =>
        let s := choose_algorithm acc.2 start tilled_pos algorithm heuristic_type t_elapsed
        match s.1 with
        | some p =>
          if (!p.isEmpty && match acc.1 with
              | none => true
              | some q => decide (p.length < q.2.2)) then
            (some (tilled_pos, p, p.length), s.2)
          else (acc.1, s.2)
        | none => (acc.1, s.2))
      (none, pf)
    match r.1 with
    | some (g, p, _) => (some (g, p), r.2)
    | none => (none, r.2)

end PathFinder

/-!
Specification-side definitions used to state and prove the theorems.
-/

/-- Two positions differ by exactly one step in one of the four
cardinal directions. -/
def card_step (u v : Pos) : Prop :=
  (v.1 - u.1).natAbs + (v.2 - u.2).natAbs = 1

instance (u v : Pos) : Decidable (card_step u v) := by
  unfold card_step; infer_instance

/-- Well-formedness of a predecessor map built by the searches: the map
never rebinds the start, every edge of the map joins walkable in-bounds
neighbours, and a rank function (the g-score or cost map for A* and
Dijkstra, the discovery order for BFS and greedy) strictly decreases
along the map, bounded by K, so that every chain reaches the start. -/
structure CFInv (gm : GridMap) (start : Pos) (cf : Pos → Option Pos)
    (R : Pos → Option Nat) (K : Nat) : Prop where
  start_rank : R start = some 0
  start_none : cf start = none
  rank_dom : ∀ v, R v ≠ none → v = start ∨ cf v ≠ none
  cf_ok : ∀ v u, cf v = some u →
    gm.is_walkable v.1 v.2 = true ∧ gm.is_walkable u.1 u.2 = true ∧
    v ∈ gm.get_neighbors u.1 u.2 ∧
    ∃ rv ru, R v = some rv ∧ R u = some ru ∧ ru < rv
  rank_bound : ∀ v r, R v = some r → r ≤ K

/-- Invariant carried through the A* loop: the predecessor map is
well-formed with the g-score map as rank, and every queued position has
a g-score and is walkable. -/
def AstarInv (gm : GridMap) (start : Pos) (K : Nat) (st : PathFinder.AstarState) : Prop :=
  CFInv gm start st.came_from st.g_score K ∧
  ∀ e ∈ st.open_set, (st.g_score e.2.2).isSome ∧ gm.is_walkable e.2.2.1 e.2.2.2 = true

/-- Invariant carried through the Dijkstra loop, with the cost map as
rank. -/
def DijkstraInv (gm : GridMap) (start : Pos) (K : Nat) (st : PathFinder.DijkstraState) : Prop :=
  CFInv gm start st.came_from st.cost K ∧
  ∀ e ∈ st.open_set, (st.cost e.2.2).isSome ∧ gm.is_walkable e.2.2.1 e.2.2.2 = true

/-- Invariant carried through the greedy loop: some rank function (the
discovery order) certifies the predecessor map, defined exactly on the
visited set, and every queued position is visited and walkable. -/
def GreedyInv (gm : GridMap) (start : Pos) (K : Nat) (st : PathFinder.GreedyState) : Prop :=
  ∃ R : Pos → Option Nat,
    CFInv gm start st.came_from R K ∧
    (∀ v, (R v).isSome ↔ st.visited v = true) ∧
    st.visited start = true ∧
    ∀ e ∈ st.open_set, st.visited e.2.2 = true ∧ gm.is_walkable e.2.2.1 e.2.2.2 = true

/-- Invariant carried through the BFS loop. -/
def BfsInv (gm : GridMap) (start : Pos) (K : Nat) (st : PathFinder.BfsState) : Prop :=
  ∃ R : Pos → Option Nat,
    CFInv gm start st.came_from R K ∧
    (∀ v, (R v).isSome ↔ st.visited v = true) ∧
    st.visited start = true ∧
    ∀ q ∈ st.queue, st.visited q = true ∧ gm.is_walkable q.1 q.2 = true

/-- The strict row-major order on positions: earlier row first, then
earlier column within a row. -/
def row_major_lt (a b : Pos) : Prop :=
  a.1 < b.1 ∨ (a.1 = b.1 ∧ a.2 < b.2)

/-- One accumulator step of the goal-selection loop of
find_nearest_tilled, on the best-so-far component alone, with the
per-goal search result abstracted as P. -/
def select_step (P : Pos → Option (List Pos))
    (acc : Option (Pos × List Pos × Nat)) (g : Pos) : Option (Pos × List Pos × Nat) :=
  match P g with
  | some p =>
    if (!p.isEmpty && match acc with
        | none => true
        | some q => decide (p.length < q.2.2)) then some (g, p, p.length)
    else acc
  | none => acc

namespace GridMap

lemma tileAt_writeAt_self {gm : GridMap} (hwf : gm.Wf) {row col : Nat}
    (hr : row < gm.rows) (hc : col < gm.columns) (s : String) :
    (gm.writeAt row col s).tileAt row col = s := by
  obtain ⟨hlen, hrow⟩ := hwf
  have hrlt : row < gm.grid.length := by omega
  have hget : ∃ l, gm.grid.get? row = some l ∧ l ∈ gm.grid := by
    cases h : gm.grid.get? row with
    | none => exact absurd (List.get?_eq_none.mp h) (by omega)
    | some l => exact ⟨l, rfl, List.get?_mem h⟩
  obtain ⟨l, hl, hmem⟩ := hget
  have hclen : col < l.length := by rw [hrow l hmem]; exact hc
  rw [List.get?_eq_getElem?] at hl
  unfold tileAt writeAt
  simp [List.getElem?_set_self hrlt, hl, List.getElem?_set_self hclen]

lemma tileAt_writeAt_ne {gm : GridMap} {row col row' col' : Nat}
    (h : (row, col) ≠ (row', col')) (s : String) :
    (gm.writeAt row col s).tileAt row' col' = gm.tileAt row' col' := by
  unfold tileAt writeAt
  by_cases hr : row = row'
  · subst hr
    have hc : col ≠ col' := by simpa [Prod.ext_iff] using h
    simp only [List.get?_eq_getElem?]
    cases hgr : gm.grid[row]? with
    | none => simp [List.getElem?_set_self', hgr]
    | some l => simp [List.getElem?_set_self', hgr, List.getElem?_set_ne hc]
  · simp [List.get?_eq_getElem?, List.getElem?_set_ne hr]

end GridMap

/-- C5: for every in-bounds position and every tile state, set_tile
overwrites that tile (whatever was there before, including a tilled goal
or a fence) and returns true; for every out-of-bounds position it
returns false and leaves the grid unchanged. -/
theorem set_tile_overwrite_or_reject (gm : GridMap) (hwf : gm.Wf)
    (row col : Int) (s : String) (hs : s = "" ∨ s = "T" ∨ s = "F") :
    (gm.is_valid_position row col = true →
      (gm.set_tile row col s).1 = true ∧
      (gm.set_tile row col s).2.get_tile row col = some s) ∧
    (gm.is_valid_position row col = false →
      (gm.set_tile row col s).1 = false ∧ (gm.set_tile row col s).2 = gm) := by
  constructor
  · intro hv
    have hb : (0 ≤ row ∧ row < (gm.rows : Int)) ∧ (0 ≤ col ∧ col < (gm.columns : Int)) := by
      have h := hv
      simp [GridMap.is_valid_position] at h
      tauto
    have hrlt : row.toNat < gm.rows := by omega
    have hclt : col.toNat < gm.columns := by omega
    have hvalid' : (gm.writeAt row.toNat col.toNat s).is_valid_position row col = true := by
      simpa [GridMap.is_valid_position, GridMap.writeAt] using hv
    constructor
    · rcases hs with rfl | rfl | rfl <;> simp [GridMap.set_tile, hv]
    · rcases hs with rfl | rfl | rfl <;>
        simp [GridMap.set_tile, hv, GridMap.get_tile, hvalid',
          GridMap.tileAt_writeAt_self hwf hrlt hclt]
  · intro hv
    simp [GridMap.set_tile, hv]

/-- Witness for C5 at a concrete grid. -/
theorem set_tile_overwrite_or_reject_witness :
    ((GridMap.init 2 2).is_valid_position 0 1 = true →
      (((GridMap.init 2 2).set_tile 0 1 "F").1 = true ∧
        ((GridMap.init 2 2).set_tile 0 1 "F").2.get_tile 0 1 = some "F")) ∧
    (((GridMap.init 2 2).set_tile 0 1 "F").1 = true ∧
      ((GridMap.init 2 2).set_tile 0 1 "F").2.get_tile 0 1 = some "F") := by
  have h := set_tile_overwrite_or_reject (GridMap.init 2 2) (by decide) 0 1 "F"
    (by right; right; rfl)
  exact ⟨h.1, h.1 (by decide)⟩

/-- C10: for an in-bounds position, a tile string outside the accepted
set is rejected: set_tile returns false and the grid is unchanged. -/
theorem set_tile_rejects_unknown_state (gm : GridMap) (row col : Int) (s : String)
    (hv : gm.is_valid_position row col = true)
    (hs : ¬ (s = "" ∨ s = "T" ∨ s = "F")) :
    (gm.set_tile row col s).1 = false ∧ (gm.set_tile row col s).2 = gm := by
  simp [GridMap.set_tile, hv, hs]

/-- Witness for C10 at a concrete grid and tile string. -/
theorem set_tile_rejects_unknown_state_witness :
    ((GridMap.init 2 2).set_tile 0 1 "X").1 = false ∧
      ((GridMap.init 2 2).set_tile 0 1 "X").2 = GridMap.init 2 2 := by
  exact set_tile_rejects_unknown_state (GridMap.init 2 2) 0 1 "X" (by decide) (by decide)

namespace GridMap

lemma foldl_place_obstacle_preserves_tilled (l : List (Nat × Nat)) (gm : GridMap)
    (row col : Nat) (ht : gm.tileAt row col = "T") :
    (l.foldl GridMap.place_obstacle gm).tileAt row col = "T" := by
  induction l generalizing gm with
  | nil => simpa
  | cons sel rest ih =>
    simp only [List.foldl_cons]
    apply ih
    unfold GridMap.place_obstacle
    split_ifs with hsel
    · have heq : (sel.1, sel.2) ≠ (row, col) := by
        rintro h
        injection h with h1 h2
        rw [h1, h2] at hsel
        exact hsel ht
      rw [GridMap.tileAt_writeAt_ne heq]
      exact ht
    · exact ht

/-- Normal form of get_neighbors: the four candidates in source order,
each kept exactly when in bounds. -/
lemma get_neighbors_eq (gm : GridMap) (row col : Int) :
    gm.get_neighbors row col =
      (if gm.is_valid_position (row - 1) col then [((row - 1 : Int), col)] else []) ++
      (if gm.is_valid_position (row + 1) col then [((row + 1 : Int), col)] else []) ++
      (if gm.is_valid_position row (col - 1) then [(row, (col - 1 : Int))] else []) ++
      (if gm.is_valid_position row (col + 1) then [(row, (col + 1 : Int))] else []) := by
  have e1 : row + (-1 : Int) = row - 1 := by ring
  have e2 : col + (-1 : Int) = col - 1 := by ring
  simp only [GridMap.get_neighbors, List.filterMap_cons, List.filterMap_nil, e1, e2,
    add_zero]
  rcases Bool.eq_false_or_eq_true (gm.is_valid_position (row - 1) col) with b1 | b1 <;>
    rcases Bool.eq_false_or_eq_true (gm.is_valid_position (row + 1) col) with b2 | b2 <;>
    rcases Bool.eq_false_or_eq_true (gm.is_valid_position row (col - 1)) with b3 | b3 <;>
    rcases Bool.eq_false_or_eq_true (gm.is_valid_position row (col + 1)) with b4 | b4 <;>
    simp [b1, b2, b3, b4]

end GridMap

/-- C9: generate_random_obstacles never changes a tilled tile, whatever
the density and the sequence of random selections, and with density 0 it
performs no placements at all, leaving the grid unchanged. -/
theorem generate_random_obstacles_spec (gm : GridMap) (d : ℚ)
    (selections : List (Nat × Nat)) (row col : Nat)
    (ht : gm.tileAt row col = "T") :
    (gm.generate_random_obstacles d selections).tileAt row col = "T" ∧
    ∀ gm' : GridMap, ∀ sels : List (Nat × Nat),
      gm'.generate_random_obstacles 0 sels = gm' := by
  constructor
  · exact GridMap.foldl_place_obstacle_preserves_tilled _ gm row col ht
  · intro gm' sels
    have hz : (Rat.floor 0).toNat = 0 := rfl
    simp [GridMap.generate_random_obstacles, hz]

/-- Witness for C9 at a concrete grid with one tilled tile. -/
theorem generate_random_obstacles_spec_witness :
    ((⟨2, 2, [["T", ""], ["", ""]]⟩ : GridMap).generate_random_obstacles (1/2)
        [(0, 0), (1, 1)]).tileAt 0 0 = "T" := by
  exact (generate_random_obstacles_spec ⟨2, 2, [["T", ""], ["", ""]]⟩ (1/2)
    [(0, 0), (1, 1)] 0 0 (by decide)).1

/-- C8: get_neighbors returns exactly the in-bounds candidates among the
four cardinal neighbours in the fixed order up, down, left, right; it
does not inspect the tiles (any grid of the same dimensions yields the
same list); on a grid at least 2 by 2, a corner cell has exactly 2
neighbours, a non-corner edge cell exactly 3, and an interior cell
exactly 4. -/
theorem get_neighbors_spec (gm : GridMap) (row col : Int)
    (h2r : 2 ≤ gm.rows) (h2c : 2 ≤ gm.columns)
    (hv : gm.is_valid_position row col = true) :
    gm.get_neighbors row col =
      (([(row - 1, col), (row + 1, col), (row, col - 1), (row, col + 1)] : List Pos).filter
        fun p => gm.is_valid_position p.1 p.2) ∧
    (∀ gm' : GridMap, gm'.rows = gm.rows → gm'.columns = gm.columns →
      gm'.get_neighbors row col = gm.get_neighbors row col) ∧
    (((row = 0 ∨ row = (gm.rows : Int) - 1) ∧ (col = 0 ∨ col = (gm.columns : Int) - 1)) →
      (gm.get_neighbors row col).length = 2) ∧
    ((((row = 0 ∨ row = (gm.rows : Int) - 1) ∧ ¬(col = 0 ∨ col = (gm.columns : Int) - 1)) ∨
      (¬(row = 0 ∨ row = (gm.rows : Int) - 1) ∧ (col = 0 ∨ col = (gm.columns : Int) - 1))) →
      (gm.get_neighbors row col).length = 3) ∧
    ((¬(row = 0 ∨ row = (gm.rows : Int) - 1) ∧ ¬(col = 0 ∨ col = (gm.columns : Int) - 1)) →
      (gm.get_neighbors row col).length = 4) := by
  obtain ⟨⟨hb1, hb2⟩, hb3, hb4⟩ :
      (0 ≤ row ∧ row < (gm.rows : Int)) ∧ (0 ≤ col ∧ col < (gm.columns : Int)) := by
    have h := hv
    simp [GridMap.is_valid_position] at h
    tauto
  have hu : gm.is_valid_position (row - 1) col = true ↔ ¬(row = 0) := by
    simp [GridMap.is_valid_position]; omega
  have hd : gm.is_valid_position (row + 1) col = true ↔ ¬(row = (gm.rows : Int) - 1) := by
    simp [GridMap.is_valid_position]; omega
  have hl : gm.is_valid_position row (col - 1) = true ↔ ¬(col = 0) := by
    simp [GridMap.is_valid_position]; omega
  have hr : gm.is_valid_position row (col + 1) = true ↔ ¬(col = (gm.columns : Int) - 1) := by
    simp [GridMap.is_valid_position]; omega
  have b1 : gm.is_valid_position (row - 1) col = ! decide (row = 0) := by
    rcases Bool.eq_false_or_eq_true (gm.is_valid_position (row - 1) col) with h | h <;>
      rw [h] <;> by_cases c : row = 0 <;> simp_all
  have b2 : gm.is_valid_position (row + 1) col = ! decide (row = (gm.rows : Int) - 1) := by
    rcases Bool.eq_false_or_eq_true (gm.is_valid_position (row + 1) col) with h | h <;>
      rw [h] <;> by_cases c : row = (gm.rows : Int) - 1 <;> simp_all
  have b3 : gm.is_valid_position row (col - 1) = ! decide (col = 0) := by
    rcases Bool.eq_false_or_eq_true (gm.is_valid_position row (col - 1)) with h | h <;>
      rw [h] <;> by_cases c : col = 0 <;> simp_all
  have b4 : gm.is_valid_position row (col + 1) = ! decide (col = (gm.columns : Int) - 1) := by
    rcases Bool.eq_false_or_eq_true (gm.is_valid_position row (col + 1)) with h | h <;>
      rw [h] <;> by_cases c : col = (gm.columns : Int) - 1 <;> simp_all
  have hlen : (gm.get_neighbors row col).length =
      (if row = 0 then 0 else 1) + (if row = (gm.rows : Int) - 1 then 0 else 1) +
      ((if col = 0 then 0 else 1) + (if col = (gm.columns : Int) - 1 then 0 else 1)) := by
    rw [GridMap.get_neighbors_eq, b1, b2, b3, b4]
    by_cases c1 : row = 0 <;> by_cases c2 : row = (gm.rows : Int) - 1 <;>
      by_cases c3 : col = 0 <;> by_cases c4 : col = (gm.columns : Int) - 1 <;>
      simp [c1, c2, c3, c4] <;> split_ifs <;> simp_all
  refine ⟨?_, ?_, ?_, ?_, ?_⟩
  · rw [GridMap.get_neighbors_eq]
    rcases Bool.eq_false_or_eq_true (gm.is_valid_position (row - 1) col) with h1 | h1 <;>
      rcases Bool.eq_false_or_eq_true (gm.is_valid_position (row + 1) col) with h2 | h2 <;>
      rcases Bool.eq_false_or_eq_true (gm.is_valid_position row (col - 1)) with h3 | h3 <;>
      rcases Bool.eq_false_or_eq_true (gm.is_valid_position row (col + 1)) with h4 | h4 <;>
      simp [List.filter, h1, h2, h3, h4]
  · intro gm' hrows hcols
    simp [GridMap.get_neighbors, GridMap.is_valid_position, hrows, hcols]
  · rintro ⟨hrow, hcol⟩
    rw [hlen]
    rcases hrow with h | h <;> rcases hcol with h' | h' <;> split_ifs <;> omega
  · rintro (⟨hrow, hcol⟩ | ⟨hrow, hcol⟩)
    · push_neg at hcol
      rw [hlen]
      rcases hrow with h | h <;> split_ifs <;> omega
    · push_neg at hrow
      rw [hlen]
      rcases hcol with h | h <;> split_ifs <;> omega
  · rintro ⟨hrow, hcol⟩
    push_neg at hrow hcol
    rw [hlen]
    split_ifs <;> omega

/-- Witness for C8 on a concrete 3 by 3 grid: a corner, an edge cell and
the centre. -/
theorem get_neighbors_spec_witness :
    ((GridMap.init 3 3).get_neighbors 0 0).length = 2 ∧
    ((GridMap.init 3 3).get_neighbors 0 1).length = 3 ∧
    ((GridMap.init 3 3).get_neighbors 1 1).length = 4 := by
  refine ⟨?_, ?_, ?_⟩
  · exact (get_neighbors_spec (GridMap.init 3 3) 0 0 (by decide) (by decide)
      (by decide)).2.2.1 (by decide)
  · exact (get_neighbors_spec (GridMap.init 3 3) 0 1 (by decide) (by decide)
      (by decide)).2.2.2.1 (by decide)
  · exact (get_neighbors_spec (GridMap.init 3 3) 1 1 (by decide) (by decide)
      (by decide)).2.2.2.2 (by decide)

lemma popMinBy_mem {α : Type} (lt : α → α → Bool) :
    ∀ (l : List α) (e : α) (rest : List α),
      popMinBy lt l = some (e, rest) → e ∈ l ∧ ∀ x ∈ rest, x ∈ l := by
  intro l
  induction l with
  | nil => intro e rest h; simp [popMinBy] at h
  | cons a l ih =>
    intro e rest h
    simp only [popMinBy] at h
    cases hrec : popMinBy lt l with
    | none =>
      rw [hrec] at h
      injection h with h'
      injection h' with h1 h2
      subst h1; subst h2
      exact ⟨by simp, by simp⟩
    | some m =>
      rw [hrec] at h
      obtain ⟨me, mrest⟩ := m
      obtain ⟨hm, hsub⟩ := ih me mrest hrec
      by_cases hlt : lt me a
      · simp only [hlt, if_pos] at h
        injection h with h'
        injection h' with h1 h2
        subst h1; subst h2
        refine ⟨by simp [hm], ?_⟩
        intro x hx
        rcases List.mem_cons.mp hx with rfl | hx
        · simp
        · simp [hsub x hx]
      · simp only [hlt, if_neg, Bool.false_eq_true, not_false_iff] at h
        injection h with h'
        injection h' with h1 h2
        subst h1; subst h2
        exact ⟨by simp, fun x hx => by simp [hx]⟩

lemma mem_get_neighbors_card {gm : GridMap} {u v : Pos}
    (h : v ∈ gm.get_neighbors u.1 u.2) :
    card_step u v ∧ gm.is_valid_position v.1 v.2 = true := by
  unfold GridMap.get_neighbors at h
  simp only [List.mem_filterMap] at h
  obtain ⟨d, hd, hv⟩ := h
  fin_cases hd <;>
  · split at hv
    next hval =>
      injection hv with hv
      subst hv
      refine ⟨by unfold card_step; simp, by simpa using hval⟩
    next hval => exact absurd hv (by simp)

lemma mem_get_neighbors_ne {gm : GridMap} {u v : Pos}
    (h : v ∈ gm.get_neighbors u.1 u.2) : v ≠ u := by
  obtain ⟨hc, _⟩ := mem_get_neighbors_card h
  intro he
  subst he
  unfold card_step at hc
  simp at hc

/-- Walking a well-formed predecessor chain from a walkable position
with enough fuel yields a list that starts at the search start, ends
where the walk began, moves one cardinal step at a time and stays on
walkable tiles. -/
lemma reconstructAux_valid {gm : GridMap} {start : Pos} {cf : Pos → Option Pos}
    {R : Pos → Option Nat} {K : Nat} (hinv : CFInv gm start cf R K) :
    ∀ rc fuel (current : Pos) (acc : List Pos), R current = some rc → rc < fuel →
      gm.is_walkable current.1 current.2 = true →
      List.Chain' card_step (current :: acc) →
      (∀ q ∈ acc, gm.is_walkable q.1 q.2 = true) →
      (PathFinder.reconstructAux cf fuel current acc).head? = some start ∧
      List.Chain' card_step (PathFinder.reconstructAux cf fuel current acc) ∧
      (∀ q ∈ PathFinder.reconstructAux cf fuel current acc,
        gm.is_walkable q.1 q.2 = true) ∧
      (PathFinder.reconstructAux cf fuel current acc).getLast? =
        (current :: acc).getLast? := by
  intro rc
  induction rc using Nat.strong_induction_on with
  | _ rc ih =>
    intro fuel current acc hR hfuel hw hchain hacc
    cases fuel with
    | zero => omega
    | succ f =>
      cases hcf : cf current with
      | none =>
        have hstart : current = start := by
          rcases hinv.rank_dom current (by rw [hR]; simp) with h | h
          · exact h
          · exact absurd hcf h
        subst hstart
        unfold PathFinder.reconstructAux
        rw [hcf]
        refine ⟨by simp, hchain, ?_, rfl⟩
        intro q hq
        rcases List.mem_cons.mp hq with rfl | hq
        · exact hw
        · exact hacc q hq
      | some prev =>
        obtain ⟨wv, wu, hadj, rv, ru, hRv, hRu, hlt⟩ := hinv.cf_ok current prev hcf
        have hrv : rv = rc := by
          rw [hR] at hRv
          injection hRv with h
          exact h.symm
        subst hrv
        have hstep : card_step prev current := (mem_get_neighbors_card hadj).1
        have hres := ih ru hlt f prev (current :: acc) hRu (by omega) wu
          (List.chain'_cons.mpr ⟨hstep, hchain⟩)
          (by
            intro q hq
            rcases List.mem_cons.mp hq with rfl | hq
            · exact hw
            · exact hacc q hq)
        unfold PathFinder.reconstructAux
        rw [hcf]
        refine ⟨hres.1, hres.2.1, hres.2.2.1, ?_⟩
        rw [hres.2.2.2]
        simp

lemma CFInv.mono {gm : GridMap} {start : Pos} {cf : Pos → Option Pos}
    {R : Pos → Option Nat} {K K' : Nat} (h : CFInv gm start cf R K) (hK : K ≤ K') :
    CFInv gm start cf R K' :=
  ⟨h.start_rank, h.start_none, h.rank_dom, h.cf_ok,
    fun v r hv => le_trans (h.rank_bound v r hv) hK⟩

lemma astar_relax_char (gm : GridMap) (goal : Pos) (ht : String) (current : Pos)
    (st : PathFinder.AstarState) (neighbor : Pos) :
    (PathFinder.astar_relax gm goal ht current st neighbor = st)
  ∨ (gm.is_walkable neighbor.1 neighbor.2 = true ∧
     (st.g_score neighbor = none ∨
       ∃ gOld, st.g_score neighbor = some gOld ∧ (st.g_score current).getD 0 + 1 < gOld) ∧
     (PathFinder.astar_relax gm goal ht current st neighbor).came_from =
        (fun p => if p = neighbor then some current else st.came_from p) ∧
     (PathFinder.astar_relax gm goal ht current st neighbor).g_score =
        (fun p => if p = neighbor then some ((st.g_score current).getD 0 + 1)
          else st.g_score p) ∧
     ((PathFinder.astar_relax gm goal ht current st neighbor).open_set = st.open_set ∨
      (PathFinder.astar_relax gm goal ht current st neighbor).open_set =
        st.open_set ++ [(Fval.addNat ((st.g_score current).getD 0 + 1)
          (PathFinder.get_heuristic neighbor goal ht), st.counter, neighbor)])) := by
  unfold PathFinder.astar_relax
  by_cases hw : gm.is_walkable neighbor.1 neighbor.2 = true
  case neg => left; simp [hw]
  case pos =>
    cases hg : st.g_score neighbor with
    | none =>
      right
      refine ⟨hw, Or.inl rfl, ?_⟩
      by_cases hh : st.open_set_hash neighbor = true <;>
        simp [hw, hg, hh] <;> exact ⟨rfl, rfl⟩
    | some gOld =>
      by_cases himp : (st.g_score current).getD 0 + 1 < gOld
      case neg => left; simp [hw, hg, himp]
      case pos =>
        right
        refine ⟨hw, Or.inr ⟨gOld, rfl, himp⟩, ?_⟩
        by_cases hh : st.open_set_hash neighbor = true <;>
          simp [hw, hg, himp, hh] <;> exact ⟨rfl, rfl⟩

lemma astar_relax_inv {gm : GridMap} {start goal current neighbor : Pos} {ht : String}
    {K rc : Nat} {st : PathFinder.AstarState}
    (hnb : neighbor ∈ gm.get_neighbors current.1 current.2)
    (hinv : AstarInv gm start (K + 1) st)
    (hcur : st.g_score current = some rc) (hrc : rc ≤ K)
    (hwalk : gm.is_walkable current.1 current.2 = true) :
    AstarInv gm start (K + 1) (PathFinder.astar_relax gm goal ht current st neighbor) ∧
    (PathFinder.astar_relax gm goal ht current st neighbor).g_score current = some rc := by
  obtain ⟨hcf, hopen⟩ := hinv
  have hne_cur : neighbor ≠ current := mem_get_neighbors_ne hnb
  rcases astar_relax_char gm goal ht current st neighbor with heq | ⟨hw, himp, hCF, hG, hO⟩
  · rw [heq]; exact ⟨⟨hcf, hopen⟩, hcur⟩
  · have htent : (st.g_score current).getD 0 + 1 = rc + 1 := by rw [hcur]; rfl
    have hne_start : neighbor ≠ start := by
      intro he
      rw [he, hcf.start_rank] at himp
      rcases himp with h | ⟨gOld, hgo, hlt⟩
      · exact Option.noConfusion h
      · injection hgo with hgo; omega
    have hGcur : (PathFinder.astar_relax gm goal ht current st neighbor).g_score current =
        some rc := by
      rw [hG]
      simp only [if_neg hne_cur.symm]
      exact hcur
    have hGmono : ∀ p, (st.g_score p).isSome →
        ((PathFinder.astar_relax gm goal ht current st neighbor).g_score p).isSome := by
      intro p hp
      rw [hG]
      by_cases hpn : p = neighbor <;> simp [hpn, hp]
    refine ⟨⟨?_, ?_⟩, hGcur⟩
    · constructor
      · rw [hG]
        simp only [if_neg hne_start.symm]
        exact hcf.start_rank
      · rw [hCF]
        simp only [if_neg hne_start.symm]
        exact hcf.start_none
      · intro v hv
        rw [hG] at hv
        rw [hCF]
        by_cases hvn : v = neighbor
        · right; simp [hvn]
        · simp only [hvn, if_neg, if_false] at hv ⊢
          rcases hcf.rank_dom v hv with h | h
          · exact Or.inl h
          · exact Or.inr h
      · intro v u hvu
        rw [hCF] at hvu
        rw [hG]
        by_cases hvn : v = neighbor
        · subst hvn
          simp only [if_pos rfl] at hvu
          injection hvu with hvu
          subst hvu
          refine ⟨hw, hwalk, hnb, (st.g_score current).getD 0 + 1, rc, by simp, ?_, ?_⟩
          · simp only [if_neg hne_cur.symm]
            exact hcur
          · simp only [hcur, Option.getD_some]
            omega
        · simp only [hvn, if_neg, if_false] at hvu
          obtain ⟨w1, w2, hadj, rv, ru, hRv, hRu, hlt⟩ := hcf.cf_ok v u hvu
          refine ⟨w1, w2, hadj, rv, ?_⟩
          by_cases hun : u = neighbor
          · subst hun
            rcases himp with h | ⟨gOld, hgo, hlt'⟩
            · rw [h] at hRu; exact absurd hRu (by simp)
            · rw [hgo] at hRu
              injection hRu with hRu
              refine ⟨(st.g_score current).getD 0 + 1, by simp [hvn, hRv], by simp, ?_⟩
              omega
          · exact ⟨ru, by simp [hvn, hRv], by simp [hun, hRu], hlt⟩
      · intro v r hv
        rw [hG] at hv
        by_cases hvn : v = neighbor
        · subst hvn
          simp only [if_pos rfl] at hv
          injection hv with hv
          rw [← hv, htent]; omega
        · simp only [hvn, if_neg, if_false] at hv
          exact hcf.rank_bound v r hv
    · intro e he
      rcases hO with hO | hO
      · rw [hO] at he
        obtain ⟨h1, h2⟩ := hopen e he
        exact ⟨hGmono _ h1, h2⟩
      · rw [hO] at he
        simp only [List.mem_append, List.mem_singleton] at he
        rcases he with he | rfl
        · obtain ⟨h1, h2⟩ := hopen e he
          exact ⟨hGmono _ h1, h2⟩
        · refine ⟨?_, hw⟩
          rw [hG]
          simp

lemma astar_visit_fold {gm : GridMap} {start goal current : Pos} {ht : String} {K rc : Nat} :
    ∀ (L : List Pos) (st : PathFinder.AstarState),
      (∀ nb ∈ L, nb ∈ gm.get_neighbors current.1 current.2) →
      AstarInv gm start (K + 1) st →
      st.g_score current = some rc → rc ≤ K →
      gm.is_walkable current.1 current.2 = true →
      AstarInv gm start (K + 1)
        (L.foldl (PathFinder.astar_relax gm goal ht current) st) := by
  intro L
  induction L with
  | nil => intro st _ h _ _ _; simpa using h
  | cons nb L ih =>
    intro st hL hinv hcur hrc hwalk
    simp only [List.foldl_cons]
    obtain ⟨hinv', hcur'⟩ := astar_relax_inv (hL nb (by simp)) hinv hcur hrc hwalk
    exact ih _ (fun x hx => hL x (by simp [hx])) hinv' hcur' hrc hwalk

lemma astar_visit_inv {gm : GridMap} {start goal current : Pos} {ht : String} {K rc : Nat}
    {st : PathFinder.AstarState} (hinv : AstarInv gm start K st)
    (hcur : st.g_score current = some rc) (hrc : rc ≤ K)
    (hwalk : gm.is_walkable current.1 current.2 = true) :
    AstarInv gm start (K + 1) (PathFinder.astar_visit gm goal ht current st) := by
  have hinv' : AstarInv gm start (K + 1) st :=
    ⟨hinv.1.mono (Nat.le_succ K), hinv.2⟩
  exact astar_visit_fold _ st (fun nb h => h) hinv' hcur hrc hwalk

lemma astar_step_snd (gm : GridMap) (goal : Pos) (ht : String) (rf : Nat) (current : Pos)
    (st : PathFinder.AstarState) :
    (PathFinder.astar_step gm goal ht rf current st).2 =
      if current = goal then some (PathFinder.reconstruct_path st.came_from current rf)
      else none := by
  unfold PathFinder.astar_step
  by_cases hh : st.open_set_hash current = true <;> by_cases hg : current = goal <;>
    simp [hh, hg] <;> split <;> rfl

lemma astar_step_fst_inv {gm : GridMap} {start goal current : Pos} {ht : String}
    {rf K rc : Nat} {st : PathFinder.AstarState}
    (hinv : AstarInv gm start K st) (hcur : st.g_score current = some rc) (hrc : rc ≤ K)
    (hwalk : gm.is_walkable current.1 current.2 = true) (hgoal : current ≠ goal) :
    AstarInv gm start (K + 1) (PathFinder.astar_step gm goal ht rf current st).1 := by
  unfold PathFinder.astar_step
  by_cases hh : st.open_set_hash current = true <;>
  · simp only [hh, if_pos, if_neg, hgoal, Bool.false_eq_true, not_false_iff, if_false]
    exact astar_visit_inv hinv hcur hrc hwalk

lemma astar_loop_valid {gm : GridMap} {start goal : Pos} {ht : String} {F : Nat} :
    ∀ (fuel K : Nat) (st : PathFinder.AstarState),
      AstarInv gm start K st → K + fuel ≤ F →
      ∀ p vis, PathFinder.astar_loop gm goal ht F fuel st = (some p, vis) →
        p.head? = some start ∧ p.getLast? = some goal ∧ List.Chain' card_step p ∧
        ∀ q ∈ p, gm.is_walkable q.1 q.2 = true := by
  intro fuel
  induction fuel with
  | zero =>
    intro K st _ _ p vis h
    simp [PathFinder.astar_loop] at h
  | succ f ih =>
    intro K st hinv hF p vis h
    unfold PathFinder.astar_loop at h
    cases hpop : popMinBy entry_lt st.open_set with
    | none => rw [hpop] at h; simp at h
    | some er =>
      rw [hpop] at h
      obtain ⟨e, rest⟩ := er
      dsimp only [] at h
      obtain ⟨hmem, hsub⟩ := popMinBy_mem entry_lt st.open_set e rest hpop
      obtain ⟨hg, hwalk⟩ := hinv.2 e hmem
      obtain ⟨rc, hrc⟩ := Option.isSome_iff_exists.mp hg
      have hrcK : rc ≤ K := hinv.1.rank_bound _ _ hrc
      have hinv1 : AstarInv gm start K { st with open_set := rest } :=
        ⟨hinv.1, fun x hx => hinv.2 x (hsub x hx)⟩
      rcases hstep : PathFinder.astar_step gm goal ht F e.2.2 { st with open_set := rest }
        with ⟨st', o⟩
      rw [hstep] at h
      cases o with
      | some path =>
        have hsnd := astar_step_snd gm goal ht F e.2.2 { st with open_set := rest }
        rw [hstep] at hsnd
        by_cases hgoal : e.2.2 = goal
        case neg => simp [hgoal] at hsnd
        case pos =>
          simp only [hgoal, if_pos] at hsnd
          injection hsnd with hsnd
          injection h with h1 h2
          injection h1 with h1
          subst h1
          rw [hsnd]
          have hrec := reconstructAux_valid hinv.1 rc F goal []
            (hgoal ▸ hrc) (by omega) (hgoal ▸ hwalk) (List.chain'_singleton goal)
            (by intro q hq; simp at hq)
          unfold PathFinder.reconstruct_path
          refine ⟨hrec.1, ?_, hrec.2.1, hrec.2.2.1⟩
          rw [hrec.2.2.2]
          simp
      | none =>
        have hsnd := astar_step_snd gm goal ht F e.2.2 { st with open_set := rest }
        rw [hstep] at hsnd
        by_cases hgoal : e.2.2 = goal
        case pos => simp [hgoal] at hsnd
        case neg =>
          have hinv' : AstarInv gm start (K + 1) st' := by
            have h2 := @astar_step_fst_inv gm start goal e.2.2 ht F K rc
              { st with open_set := rest } hinv1 hrc hrcK hwalk hgoal
            rw [hstep] at h2
            exact h2
          exact ih (K + 1) st' hinv' (by omega) p vis h

lemma find_path_astar_valid {pf : PathFinder} {start goal : Pos} {ht : String} {t : ℚ}
    {p : List Pos} (h : (PathFinder.find_path_astar pf start goal ht t).1 = some p) :
    p.head? = some start ∧ p.getLast? = some goal ∧ List.Chain' card_step p ∧
    ∀ q ∈ p, pf.grid_map.is_walkable q.1 q.2 = true := by
  unfold PathFinder.find_path_astar at h
  by_cases h1 : pf.grid_map.is_valid_position start.1 start.2 = true
  case neg => simp [h1] at h
  case pos =>
  by_cases h2 : pf.grid_map.is_valid_position goal.1 goal.2 = true
  case neg => simp [h1, h2] at h
  case pos =>
  by_cases h3 : pf.grid_map.is_walkable start.1 start.2 = true
  case neg => simp [h1, h2, h3] at h
  case pos =>
  by_cases h4 : pf.grid_map.is_walkable goal.1 goal.2 = true
  case neg => simp [h1, h2, h3, h4] at h
  case pos =>
    simp only [h1, h2, h3, h4, not_true, if_neg, if_false, not_false_iff] at h
    have hinv0 : AstarInv pf.grid_map start 0
        { open_set := [((0, 0), 0, start)]
          counter := 1
          came_from := fun _ => none
          g_score := fun q => if q = start then some 0 else none
          f_score := fun q =>
            if q = start then some (PathFinder.get_heuristic start goal ht) else none
          open_set_hash := fun q => q = start
          visited_nodes := 0 } := by
      refine ⟨⟨?_, ?_, ?_, ?_, ?_⟩, ?_⟩
      · simp
      · rfl
      · intro v hv
        by_cases hvs : v = start
        · exact Or.inl hvs
        · simp [hvs] at hv
      · intro v u hvu
        exact absurd hvu (by simp)
      · intro v r hv
        by_cases hvs : v = start
        · simp [hvs] at hv; omega
        · simp [hvs] at hv
      · intro e he
        simp only [List.mem_singleton] at he
        subst he
        exact ⟨by simp, h3⟩
    rcases hloop : PathFinder.astar_loop pf.grid_map goal ht
        (PathFinder.search_fuel pf.grid_map) (PathFinder.search_fuel pf.grid_map)
        { open_set := [((0, 0), 0, start)]
          counter := 1
          came_from := fun _ => none
          g_score := fun q => if q = start then some 0 else none
          f_score := fun q =>
            if q = start then some (PathFinder.get_heuristic start goal ht) else none
          open_set_hash := fun q => q = start
          visited_nodes := 0 } with ⟨o, vis⟩
    rw [hloop] at h
    simp only [] at h
    subst h
    exact astar_loop_valid (PathFinder.search_fuel pf.grid_map) 0 _ hinv0 (by omega) p vis hloop

lemma dijkstra_relax_char (gm : GridMap) (current : Pos)
    (st : PathFinder.DijkstraState) (neighbor : Pos) :
    (PathFinder.dijkstra_relax gm current st neighbor = st)
  ∨ (gm.is_walkable neighbor.1 neighbor.2 = true ∧
     (st.cost neighbor = none ∨
       ∃ cOld, st.cost neighbor = some cOld ∧ (st.cost current).getD 0 + 1 < cOld) ∧
     (PathFinder.dijkstra_relax gm current st neighbor).came_from =
        (fun p => if p = neighbor then some current else st.came_from p) ∧
     (PathFinder.dijkstra_relax gm current st neighbor).cost =
        (fun p => if p = neighbor then some ((st.cost current).getD 0 + 1)
          else st.cost p) ∧
     ((PathFinder.dijkstra_relax gm current st neighbor).open_set = st.open_set ∨
      (PathFinder.dijkstra_relax gm current st neighbor).open_set =
        st.open_set ++ [((st.cost current).getD 0 + 1, st.counter, neighbor)])) := by
  unfold PathFinder.dijkstra_relax
  by_cases hw : gm.is_walkable neighbor.1 neighbor.2 = true
  case neg => left; simp [hw]
  case pos =>
    cases hg : st.cost neighbor with
    | none =>
      right
      refine ⟨hw, Or.inl rfl, ?_⟩
      by_cases hh : st.open_set_hash neighbor = true <;>
        simp [hw, hg, hh] <;> exact ⟨rfl, rfl⟩
    | some cOld =>
      by_cases himp : (st.cost current).getD 0 + 1 < cOld
      case neg => left; simp [hw, hg, himp]
      case pos =>
        right
        refine ⟨hw, Or.inr ⟨cOld, rfl, himp⟩, ?_⟩
        by_cases hh : st.open_set_hash neighbor = true <;>
          simp [hw, hg, himp, hh] <;> exact ⟨rfl, rfl⟩

lemma dijkstra_relax_inv {gm : GridMap} {start current neighbor : Pos}
    {K rc : Nat} {st : PathFinder.DijkstraState}
    (hnb : neighbor ∈ gm.get_neighbors current.1 current.2)
    (hinv : DijkstraInv gm start (K + 1) st)
    (hcur : st.cost current = some rc) (hrc : rc ≤ K)
    (hwalk : gm.is_walkable current.1 current.2 = true) :
    DijkstraInv gm start (K + 1) (PathFinder.dijkstra_relax gm current st neighbor) ∧
    (PathFinder.dijkstra_relax gm current st neighbor).cost current = some rc := by
  obtain ⟨hcf, hopen⟩ := hinv
  have hne_cur : neighbor ≠ current := mem_get_neighbors_ne hnb
  rcases dijkstra_relax_char gm current st neighbor with heq | ⟨hw, himp, hCF, hG, hO⟩
  · rw [heq]; exact ⟨⟨hcf, hopen⟩, hcur⟩
  · have htent : (st.cost current).getD 0 + 1 = rc + 1 := by rw [hcur]; rfl
    have hne_start : neighbor ≠ start := by
      intro he
      rw [he, hcf.start_rank] at himp
      rcases himp with h | ⟨cOld, hgo, hlt⟩
      · exact Option.noConfusion h
      · injection hgo with hgo; omega
    have hGcur : (PathFinder.dijkstra_relax gm current st neighbor).cost current =
        some rc := by
      rw [hG]
      simp only [if_neg hne_cur.symm]
      exact hcur
    have hGmono : ∀ p, (st.cost p).isSome →
        ((PathFinder.dijkstra_relax gm current st neighbor).cost p).isSome := by
      intro p hp
      rw [hG]
      by_cases hpn : p = neighbor <;> simp [hpn, hp]
    refine ⟨⟨?_, ?_⟩, hGcur⟩
    · constructor
      · rw [hG]
        simp only [if_neg hne_start.symm]
        exact hcf.start_rank
      · rw [hCF]
        simp only [if_neg hne_start.symm]
        exact hcf.start_none
      · intro v hv
        rw [hG] at hv
        rw [hCF]
        by_cases hvn : v = neighbor
        · right; simp [hvn]
        · simp only [hvn, if_neg, if_false] at hv ⊢
          rcases hcf.rank_dom v hv with h | h
          · exact Or.inl h
          · exact Or.inr h
      · intro v u hvu
        rw [hCF] at hvu
        rw [hG]
        by_cases hvn : v = neighbor
        · subst hvn
          simp only [if_pos rfl] at hvu
          injection hvu with hvu
          subst hvu
          refine ⟨hw, hwalk, hnb, (st.cost current).getD 0 + 1, rc, by simp, ?_, ?_⟩
          · simp only [if_neg hne_cur.symm]
            exact hcur
          · simp only [hcur, Option.getD_some]
            omega
        · simp only [hvn, if_neg, if_false] at hvu
          obtain ⟨w1, w2, hadj, rv, ru, hRv, hRu, hlt⟩ := hcf.cf_ok v u hvu
          refine ⟨w1, w2, hadj, rv, ?_⟩
          by_cases hun : u = neighbor
          · subst hun
            rcases himp with h | ⟨cOld, hgo, hlt'⟩
            · rw [h] at hRu; exact absurd hRu (by simp)
            · rw [hgo] at hRu
              injection hRu with hRu
              refine ⟨(st.cost current).getD 0 + 1, by simp [hvn, hRv], by simp, ?_⟩
              omega
          · exact ⟨ru, by simp [hvn, hRv], by simp [hun, hRu], hlt⟩
      · intro v r hv
        rw [hG] at hv
        by_cases hvn : v = neighbor
        · subst hvn
          simp only [if_pos rfl] at hv
          injection hv with hv
          rw [← hv, htent]; omega
        · simp only [hvn, if_neg, if_false] at hv
          exact hcf.rank_bound v r hv
    · intro e he
      rcases hO with hO | hO
      · rw [hO] at he
        obtain ⟨h1, h2⟩ := hopen e he
        exact ⟨hGmono _ h1, h2⟩
      · rw [hO] at he
        simp only [List.mem_append, List.mem_singleton] at he
        rcases he with he | rfl
        · obtain ⟨h1, h2⟩ := hopen e he
          exact ⟨hGmono _ h1, h2⟩
        · refine ⟨?_, hw⟩
          rw [hG]
          simp

lemma dijkstra_visit_fold {gm : GridMap} {start current : Pos} {K rc : Nat} :
    ∀ (L : List Pos) (st : PathFinder.DijkstraState),
      (∀ nb ∈ L, nb ∈ gm.get_neighbors current.1 current.2) →
      DijkstraInv gm start (K + 1) st →
      st.cost current = some rc → rc ≤ K →
      gm.is_walkable current.1 current.2 = true →
      DijkstraInv gm start (K + 1)
        (L.foldl (PathFinder.dijkstra_relax gm current) st) := by
  intro L
  induction L with
  | nil => intro st _ h _ _ _; simpa using h
  | cons nb L ih =>
    intro st hL hinv hcur hrc hwalk
    simp only [List.foldl_cons]
    obtain ⟨hinv', hcur'⟩ := dijkstra_relax_inv (hL nb (by simp)) hinv hcur hrc hwalk
    exact ih _ (fun x hx => hL x (by simp [hx])) hinv' hcur' hrc hwalk

lemma dijkstra_visit_inv {gm : GridMap} {start current : Pos} {K rc : Nat}
    {st : PathFinder.DijkstraState} (hinv : DijkstraInv gm start K st)
    (hcur : st.cost current = some rc) (hrc : rc ≤ K)
    (hwalk : gm.is_walkable current.1 current.2 = true) :
    DijkstraInv gm start (K + 1) (PathFinder.dijkstra_visit gm current st) := by
  have hinv' : DijkstraInv gm start (K + 1) st :=
    ⟨hinv.1.mono (Nat.le_succ K), hinv.2⟩
  exact dijkstra_visit_fold _ st (fun nb h => h) hinv' hcur hrc hwalk

lemma dijkstra_step_snd (gm : GridMap) (goal : Pos) (rf : Nat) (current : Pos)
    (st : PathFinder.DijkstraState) :
    (PathFinder.dijkstra_step gm goal rf current st).2 =
      if current = goal then some (PathFinder.reconstruct_path st.came_from current rf)
      else none := by
  unfold PathFinder.dijkstra_step
  by_cases hh : st.open_set_hash current = true <;> by_cases hg : current = goal <;>
    simp [hh, hg] <;> split <;> rfl

lemma dijkstra_step_fst_inv {gm : GridMap} {start goal current : Pos}
    {rf K rc : Nat} {st : PathFinder.DijkstraState}
    (hinv : DijkstraInv gm start K st) (hcur : st.cost current = some rc) (hrc : rc ≤ K)
    (hwalk : gm.is_walkable current.1 current.2 = true) (hgoal : current ≠ goal) :
    DijkstraInv gm start (K + 1) (PathFinder.dijkstra_step gm goal rf current st).1 := by
  unfold PathFinder.dijkstra_step
  by_cases hh : st.open_set_hash current = true <;>
  · simp only [hh, if_pos, if_neg, hgoal, Bool.false_eq_true, not_false_iff, if_false]
    exact dijkstra_visit_inv hinv hcur hrc hwalk

lemma dijkstra_loop_valid {gm : GridMap} {start goal : Pos} {F : Nat} :
    ∀ (fuel K : Nat) (st : PathFinder.DijkstraState),
      DijkstraInv gm start K st → K + fuel ≤ F →
      ∀ p vis, PathFinder.dijkstra_loop gm goal F fuel st = (some p, vis) →
        p.head? = some start ∧ p.getLast? = some goal ∧ List.Chain' card_step p ∧
        ∀ q ∈ p, gm.is_walkable q.1 q.2 = true := by
  intro fuel
  induction fuel with
  | zero =>
    intro K st _ _ p vis h
    simp [PathFinder.dijkstra_loop] at h
  | succ f ih =>
    intro K st hinv hF p vis h
    unfold PathFinder.dijkstra_loop at h
    cases hpop : popMinBy dentry_lt st.open_set with
    | none => rw [hpop] at h; simp at h
    | some er =>
      rw [hpop] at h
      obtain ⟨e, rest⟩ := er
      dsimp only [] at h
      obtain ⟨hmem, hsub⟩ := popMinBy_mem dentry_lt st.open_set e rest hpop
      obtain ⟨hg, hwalk⟩ := hinv.2 e hmem
      obtain ⟨rc, hrc⟩ := Option.isSome_iff_exists.mp hg
      have hrcK : rc ≤ K := hinv.1.rank_bound _ _ hrc
      have hinv1 : DijkstraInv gm start K { st with open_set := rest } :=
        ⟨hinv.1, fun x hx => hinv.2 x (hsub x hx)⟩
      rcases hstep : PathFinder.dijkstra_step gm goal F e.2.2 { st with open_set := rest }
        with ⟨st', o⟩
      rw [hstep] at h
      cases o with
      | some path =>
        have hsnd := dijkstra_step_snd gm goal F e.2.2 { st with open_set := rest }
        rw [hstep] at hsnd
        by_cases hgoal : e.2.2 = goal
        case neg => simp [hgoal] at hsnd
        case pos =>
          simp only [hgoal, if_pos] at hsnd
          injection hsnd with hsnd
          injection h with h1 h2
          injection h1 with h1
          subst h1
          rw [hsnd]
          have hrec := reconstructAux_valid hinv.1 rc F goal []
            (hgoal ▸ hrc) (by omega) (hgoal ▸ hwalk) (List.chain'_singleton goal)
            (by intro q hq; simp at hq)
          unfold PathFinder.reconstruct_path
          refine ⟨hrec.1, ?_, hrec.2.1, hrec.2.2.1⟩
          rw [hrec.2.2.2]
          simp
      | none =>
        have hsnd := dijkstra_step_snd gm goal F e.2.2 { st with open_set := rest }
        rw [hstep] at hsnd
        by_cases hgoal : e.2.2 = goal
        case pos => simp [hgoal] at hsnd
        case neg =>
          have hinv' : DijkstraInv gm start (K + 1) st' := by
            have h2 := @dijkstra_step_fst_inv gm start goal e.2.2 F K rc
              { st with open_set := rest } hinv1 hrc hrcK hwalk hgoal
            rw [hstep] at h2
            exact h2
          exact ih (K + 1) st' hinv' (by omega) p vis h

lemma find_path_dijkstra_valid {pf : PathFinder} {start goal : Pos} {t : ℚ}
    {p : List Pos} (h : (PathFinder.find_path_dijkstra pf start goal t).1 = some p) :
    p.head? = some start ∧ p.getLast? = some goal ∧ List.Chain' card_step p ∧
    ∀ q ∈ p, pf.grid_map.is_walkable q.1 q.2 = true := by
  unfold PathFinder.find_path_dijkstra at h
  by_cases h1 : pf.grid_map.is_valid_position start.1 start.2 = true
  case neg => simp [h1] at h
  case pos =>
  by_cases h2 : pf.grid_map.is_valid_position goal.1 goal.2 = true
  case neg => simp [h1, h2] at h
  case pos =>
  by_cases h3 : pf.grid_map.is_walkable start.1 start.2 = true
  case neg => simp [h1, h2, h3] at h
  case pos =>
  by_cases h4 : pf.grid_map.is_walkable goal.1 goal.2 = true
  case neg => simp [h1, h2, h3, h4] at h
  case pos =>
    simp only [h1, h2, h3, h4, not_true, if_neg, if_false, not_false_iff] at h
    have hinv0 : DijkstraInv pf.grid_map start 0
        { open_set := [(0, 0, start)]
          counter := 1
          came_from := fun _ => none
          cost := fun q => if q = start then some 0 else none
          open_set_hash := fun q => q = start
          visited_nodes := 0 } := by
      refine ⟨⟨?_, ?_, ?_, ?_, ?_⟩, ?_⟩
      · simp
      · rfl
      · intro v hv
        by_cases hvs : v = start
        · exact Or.inl hvs
        · simp [hvs] at hv
      · intro v u hvu
        exact absurd hvu (by simp)
      · intro v r hv
        by_cases hvs : v = start
        · simp [hvs] at hv; omega
        · simp [hvs] at hv
      · intro e he
        simp only [List.mem_singleton] at he
        subst he
        exact ⟨by simp, h3⟩
    rcases hloop : PathFinder.dijkstra_loop pf.grid_map goal
        (PathFinder.search_fuel pf.grid_map) (PathFinder.search_fuel pf.grid_map)
        { open_set := [(0, 0, start)]
          counter := 1
          came_from := fun _ => none
          cost := fun q => if q = start then some 0 else none
          open_set_hash := fun q => q = start
          visited_nodes := 0 } with ⟨o, vis⟩
    rw [hloop] at h
    simp only [] at h
    subst h
    exact dijkstra_loop_valid (PathFinder.search_fuel pf.grid_map) 0 _ hinv0 (by omega)
      p vis hloop

lemma greedy_relax_char (gm : GridMap) (goal : Pos) (ht : String) (current : Pos)
    (st : PathFinder.GreedyState) (neighbor : Pos) :
    (PathFinder.greedy_relax gm goal ht current st neighbor = st)
  ∨ (gm.is_walkable neighbor.1 neighbor.2 = true ∧
     st.visited neighbor = false ∧
     (PathFinder.greedy_relax gm goal ht current st neighbor).came_from =
        (fun p => if p = neighbor then some current else st.came_from p) ∧
     (PathFinder.greedy_relax gm goal ht current st neighbor).visited =
        (fun p => p = neighbor || st.visited p) ∧
     (PathFinder.greedy_relax gm goal ht current st neighbor).open_set =
        st.open_set ++
          [(PathFinder.get_heuristic neighbor goal ht, st.counter, neighbor)]) := by
  unfold PathFinder.greedy_relax
  by_cases hw : gm.is_walkable neighbor.1 neighbor.2 = true
  case neg => left; simp [hw]
  case pos =>
    by_cases hv : st.visited neighbor = true
    case pos => left; simp [hw, hv]
    case neg =>
      right
      refine ⟨hw, by simpa using hv, ?_⟩
      simp [hw, hv]

lemma greedy_relax_inv {gm : GridMap} {start goal current neighbor : Pos} {ht : String}
    {K rc : Nat} {st : PathFinder.GreedyState} {R : Pos → Option Nat}
    (hnb : neighbor ∈ gm.get_neighbors current.1 current.2)
    (hR : CFInv gm start st.came_from R (K + 1))
    (hiff : ∀ v, (R v).isSome ↔ st.visited v = true)
    (hstart : st.visited start = true)
    (hopen : ∀ e ∈ st.open_set,
      st.visited e.2.2 = true ∧ gm.is_walkable e.2.2.1 e.2.2.2 = true)
    (hcur : R current = some rc) (hrc : rc ≤ K)
    (hwalk : gm.is_walkable current.1 current.2 = true) :
    ∃ Q : Pos → Option Nat,
      CFInv gm start
        (PathFinder.greedy_relax gm goal ht current st neighbor).came_from Q (K + 1) ∧
      (∀ v, (Q v).isSome ↔
        (PathFinder.greedy_relax gm goal ht current st neighbor).visited v = true) ∧
      (PathFinder.greedy_relax gm goal ht current st neighbor).visited start = true ∧
      (∀ e ∈ (PathFinder.greedy_relax gm goal ht current st neighbor).open_set,
        (PathFinder.greedy_relax gm goal ht current st neighbor).visited e.2.2 = true ∧
        gm.is_walkable e.2.2.1 e.2.2.2 = true) ∧
      Q current = some rc := by
  have hne_cur : neighbor ≠ current := mem_get_neighbors_ne hnb
  rcases greedy_relax_char gm goal ht current st neighbor with heq | ⟨hw, hunv, hCF, hV, hO⟩
  · rw [heq]; exact ⟨R, hR, hiff, hstart, hopen, hcur⟩
  · have hRnb : R neighbor = none := by
      cases hRn : R neighbor with
      | none => rfl
      | some r =>
        have := (hiff neighbor).mp (by rw [hRn]; simp)
        rw [this] at hunv
        exact Bool.noConfusion hunv
    have hne_start : neighbor ≠ start := by
      intro he
      rw [he, hR.start_rank] at hRnb
      exact Option.noConfusion hRnb
    refine ⟨fun p => if p = neighbor then some (rc + 1) else R p, ⟨?_, ?_, ?_, ?_, ?_⟩,
      ?_, ?_, ?_, ?_⟩
    · simp only [if_neg hne_start.symm]
      exact hR.start_rank
    · rw [hCF]
      simp only [if_neg hne_start.symm]
      exact hR.start_none
    · intro v hv
      rw [hCF]
      by_cases hvn : v = neighbor
      · right; simp [hvn]
      · simp only [hvn, if_neg, if_false] at hv ⊢
        rcases hR.rank_dom v hv with h | h
        · exact Or.inl h
        · exact Or.inr h
    · intro v u hvu
      rw [hCF] at hvu
      by_cases hvn : v = neighbor
      · subst hvn
        simp only [if_pos rfl] at hvu
        injection hvu with hvu
        subst hvu
        refine ⟨hw, hwalk, hnb, rc + 1, rc, by simp, ?_, by omega⟩
        simp only [if_neg hne_cur.symm]
        exact hcur
      · simp only [hvn, if_neg, if_false] at hvu
        obtain ⟨w1, w2, hadj, rv, ru, hRv, hRu, hlt⟩ := hR.cf_ok v u hvu
        have hun : u ≠ neighbor := by
          intro he
          rw [he, hRnb] at hRu
          exact Option.noConfusion hRu
        exact ⟨w1, w2, hadj, rv, ru, by simp [hvn, hRv], by simp [hun, hRu], hlt⟩
    · intro v r hv
      by_cases hvn : v = neighbor
      · simp only [hvn, if_pos rfl] at hv
        injection hv with hv
        omega
      · simp only [hvn, if_neg, if_false] at hv
        exact hR.rank_bound v r hv
    · intro v
      rw [hV]
      by_cases hvn : v = neighbor <;> simp [hvn, hiff v]
    · rw [hV]
      simp [hstart]
    · intro e he
      rw [hO] at he
      rw [hV]
      simp only [List.mem_append, List.mem_singleton] at he
      rcases he with he | rfl
      · obtain ⟨h1, h2⟩ := hopen e he
        exact ⟨by simp [h1], h2⟩
      · exact ⟨by simp, hw⟩
    · simp only [if_neg hne_cur.symm]
      exact hcur

lemma greedy_visit_fold {gm : GridMap} {start goal current : Pos} {ht : String} {K rc : Nat} :
    ∀ (L : List Pos) (st : PathFinder.GreedyState) (R : Pos → Option Nat),
      (∀ nb ∈ L, nb ∈ gm.get_neighbors current.1 current.2) →
      CFInv gm start st.came_from R (K + 1) →
      (∀ v, (R v).isSome ↔ st.visited v = true) →
      st.visited start = true →
      (∀ e ∈ st.open_set,
        st.visited e.2.2 = true ∧ gm.is_walkable e.2.2.1 e.2.2.2 = true) →
      R current = some rc → rc ≤ K →
      gm.is_walkable current.1 current.2 = true →
      GreedyInv gm start (K + 1)
        (L.foldl (PathFinder.greedy_relax gm goal ht current) st) := by
  intro L
  induction L with
  | nil => intro st R _ hR hiff hstart hopen _ _ _; exact ⟨R, hR, hiff, hstart, hopen⟩
  | cons nb L ih =>
    intro st R hL hR hiff hstart hopen hcur hrc hwalk
    simp only [List.foldl_cons]
    obtain ⟨Q, hQ, hQiff, hQstart, hQopen, hQcur⟩ :=
      greedy_relax_inv (hL nb (by simp)) hR hiff hstart hopen hcur hrc hwalk
    exact ih _ Q (fun x hx => hL x (by simp [hx])) hQ hQiff hQstart hQopen hQcur hrc hwalk

lemma greedy_visit_inv {gm : GridMap} {start goal current : Pos} {ht : String} {K : Nat}
    {st : PathFinder.GreedyState} (hinv : GreedyInv gm start K st)
    (hvis : st.visited current = true)
    (hwalk : gm.is_walkable current.1 current.2 = true) :
    GreedyInv gm start (K + 1) (PathFinder.greedy_visit gm goal ht current st) := by
  obtain ⟨R, hR, hiff, hstart, hopen⟩ := hinv
  obtain ⟨rc, hrc⟩ := Option.isSome_iff_exists.mp ((hiff current).mpr hvis)
  have hrcK : rc ≤ K := hR.rank_bound _ _ hrc
  exact greedy_visit_fold _ st R (fun nb h => h) (hR.mono (Nat.le_succ K)) hiff hstart
    hopen hrc hrcK hwalk

lemma greedy_loop_valid {gm : GridMap} {start goal : Pos} {ht : String} {F : Nat} :
    ∀ (fuel K : Nat) (st : PathFinder.GreedyState),
      GreedyInv gm start K st → K + fuel ≤ F →
      ∀ p vis, PathFinder.greedy_loop gm goal ht F fuel st = (some p, vis) →
        p.head? = some start ∧ p.getLast? = some goal ∧ List.Chain' card_step p ∧
        ∀ q ∈ p, gm.is_walkable q.1 q.2 = true := by
  intro fuel
  induction fuel with
  | zero =>
    intro K st _ _ p vis h
    simp [PathFinder.greedy_loop] at h
  | succ f ih =>
    intro K st hinv hF p vis h
    obtain ⟨R, hR, hiff, hstart, hopen⟩ := hinv
    unfold PathFinder.greedy_loop at h
    cases hpop : popMinBy entry_lt st.open_set with
    | none => rw [hpop] at h; simp at h
    | some er =>
      rw [hpop] at h
      obtain ⟨e, rest⟩ := er
      dsimp only [] at h
      obtain ⟨hmem, hsub⟩ := popMinBy_mem entry_lt st.open_set e rest hpop
      obtain ⟨hvis, hwalk⟩ := hopen e hmem
      obtain ⟨rc, hrc⟩ := Option.isSome_iff_exists.mp ((hiff e.2.2).mpr hvis)
      have hrcK : rc ≤ K := hR.rank_bound _ _ hrc
      by_cases hgoal : e.2.2 = goal
      case pos =>
        rw [if_pos hgoal, hgoal] at h
        injection h with h1 h2
        injection h1 with h1
        subst h1
        have hrec := reconstructAux_valid hR rc F goal []
          (hgoal ▸ hrc) (by omega) (hgoal ▸ hwalk) (List.chain'_singleton goal)
          (by intro q hq; simp at hq)
        unfold PathFinder.reconstruct_path
        refine ⟨hrec.1, ?_, hrec.2.1, hrec.2.2.1⟩
        rw [hrec.2.2.2]
        simp
      case neg =>
        rw [if_neg hgoal] at h
        have hinv' : GreedyInv gm start (K + 1)
            (PathFinder.greedy_visit gm goal ht e.2.2
              { st with open_set := rest, visited_nodes := st.visited_nodes + 1 }) :=
          greedy_visit_inv ⟨R, hR, hiff, hstart, fun x hx => hopen x (hsub x hx)⟩
            hvis hwalk
        exact ih (K + 1) _ hinv' (by omega) p vis h

lemma find_path_greedy_valid {pf : PathFinder} {start goal : Pos} {ht : String} {t : ℚ}
    {p : List Pos}
    (h : (PathFinder.find_path_greedy_best_first pf start goal ht t).1 = some p) :
    p.head? = some start ∧ p.getLast? = some goal ∧ List.Chain' card_step p ∧
    ∀ q ∈ p, pf.grid_map.is_walkable q.1 q.2 = true := by
  unfold PathFinder.find_path_greedy_best_first at h
  by_cases h1 : pf.grid_map.is_valid_position start.1 start.2 = true
  case neg => simp [h1] at h
  case pos =>
  by_cases h2 : pf.grid_map.is_valid_position goal.1 goal.2 = true
  case neg => simp [h1, h2] at h
  case pos =>
  by_cases h3 : pf.grid_map.is_walkable start.1 start.2 = true
  case neg => simp [h1, h2, h3] at h
  case pos =>
  by_cases h4 : pf.grid_map.is_walkable goal.1 goal.2 = true
  case neg => simp [h1, h2, h3, h4] at h
  case pos =>
    simp only [h1, h2, h3, h4, not_true, if_neg, if_false, not_false_iff] at h
    have hinv0 : GreedyInv pf.grid_map start 0
        { open_set := [(PathFinder.get_heuristic start goal ht, 0, start)]
          counter := 1
          came_from := fun _ => none
          visited := fun q => q = start
          visited_nodes := 0 } := by
      refine ⟨fun q => if q = start then some 0 else none, ⟨?_, ?_, ?_, ?_, ?_⟩, ?_, ?_, ?_⟩
      · simp
      · rfl
      · intro v hv
        by_cases hvs : v = start
        · exact Or.inl hvs
        · simp [hvs] at hv
      · intro v u hvu
        exact absurd hvu (by simp)
      · intro v r hv
        by_cases hvs : v = start
        · simp [hvs] at hv; omega
        · simp [hvs] at hv
      · intro v
        by_cases hvs : v = start <;> simp [hvs]
      · simp
      · intro e he
        simp only [List.mem_singleton] at he
        subst he
        exact ⟨by simp, h3⟩
    rcases hloop : PathFinder.greedy_loop pf.grid_map goal ht
        (PathFinder.search_fuel pf.grid_map) (PathFinder.search_fuel pf.grid_map)
        { open_set := [(PathFinder.get_heuristic start goal ht, 0, start)]
          counter := 1
          came_from := fun _ => none
          visited := fun q => q = start
          visited_nodes := 0 } with ⟨o, vis⟩
    rw [hloop] at h
    simp only [] at h
    subst h
    exact greedy_loop_valid (PathFinder.search_fuel pf.grid_map) 0 _ hinv0 (by omega)
      p vis hloop

lemma bfs_relax_char (gm : GridMap) (current : Pos)
    (st : PathFinder.BfsState) (neighbor : Pos) :
    (PathFinder.bfs_relax gm current st neighbor = st)
  ∨ (gm.is_walkable neighbor.1 neighbor.2 = true ∧
     st.visited neighbor = false ∧
     (PathFinder.bfs_relax gm current st neighbor).came_from =
        (fun p => if p = neighbor then some current else st.came_from p) ∧
     (PathFinder.bfs_relax gm current st neighbor).visited =
        (fun p => p = neighbor || st.visited p) ∧
     (PathFinder.bfs_relax gm current st neighbor).queue = st.queue ++ [neighbor]) := by
  unfold PathFinder.bfs_relax
  by_cases hw : gm.is_walkable neighbor.1 neighbor.2 = true
  case neg => left; simp [hw]
  case pos =>
    by_cases hv : st.visited neighbor = true
    case pos => left; simp [hw, hv]
    case neg =>
      right
      refine ⟨hw, by simpa using hv, ?_⟩
      simp [hw, hv]

lemma bfs_relax_inv {gm : GridMap} {start current neighbor : Pos}
    {K rc : Nat} {st : PathFinder.BfsState} {R : Pos → Option Nat}
    (hnb : neighbor ∈ gm.get_neighbors current.1 current.2)
    (hR : CFInv gm start st.came_from R (K + 1))
    (hiff : ∀ v, (R v).isSome ↔ st.visited v = true)
    (hstart : st.visited start = true)
    (hqueue : ∀ q ∈ st.queue, st.visited q = true ∧ gm.is_walkable q.1 q.2 = true)
    (hcur : R current = some rc) (hrc : rc ≤ K)
    (hwalk : gm.is_walkable current.1 current.2 = true) :
    ∃ Q : Pos → Option Nat,
      CFInv gm start (PathFinder.bfs_relax gm current st neighbor).came_from Q (K + 1) ∧
      (∀ v, (Q v).isSome ↔ (PathFinder.bfs_relax gm current st neighbor).visited v = true) ∧
      (PathFinder.bfs_relax gm current st neighbor).visited start = true ∧
      (∀ q ∈ (PathFinder.bfs_relax gm current st neighbor).queue,
        (PathFinder.bfs_relax gm current st neighbor).visited q = true ∧
        gm.is_walkable q.1 q.2 = true) ∧
      Q current = some rc := by
  have hne_cur : neighbor ≠ current := mem_get_neighbors_ne hnb
  rcases bfs_relax_char gm current st neighbor with heq | ⟨hw, hunv, hCF, hV, hO⟩
  · rw [heq]; exact ⟨R, hR, hiff, hstart, hqueue, hcur⟩
  · have hRnb : R neighbor = none := by
      cases hRn : R neighbor with
      | none => rfl
      | some r =>
        have := (hiff neighbor).mp (by rw [hRn]; simp)
        rw [this] at hunv
        exact Bool.noConfusion hunv
    have hne_start : neighbor ≠ start := by
      intro he
      rw [he, hR.start_rank] at hRnb
      exact Option.noConfusion hRnb
    refine ⟨fun p => if p = neighbor then some (rc + 1) else R p, ⟨?_, ?_, ?_, ?_, ?_⟩,
      ?_, ?_, ?_, ?_⟩
    · simp only [if_neg hne_start.symm]
      exact hR.start_rank
    · rw [hCF]
      simp only [if_neg hne_start.symm]
      exact hR.start_none
    · intro v hv
      rw [hCF]
      by_cases hvn : v = neighbor
      · right; simp [hvn]
      · simp only [hvn, if_neg, if_false] at hv ⊢
        rcases hR.rank_dom v hv with h | h
        · exact Or.inl h
        · exact Or.inr h
    · intro v u hvu
      rw [hCF] at hvu
      by_cases hvn : v = neighbor
      · subst hvn
        simp only [if_pos rfl] at hvu
        injection hvu with hvu
        subst hvu
        refine ⟨hw, hwalk, hnb, rc + 1, rc, by simp, ?_, by omega⟩
        simp only [if_neg hne_cur.symm]
        exact hcur
      · simp only [hvn, if_neg, if_false] at hvu
        obtain ⟨w1, w2, hadj, rv, ru, hRv, hRu, hlt⟩ := hR.cf_ok v u hvu
        have hun : u ≠ neighbor := by
          intro he
          rw [he, hRnb] at hRu
          exact Option.noConfusion hRu
        exact ⟨w1, w2, hadj, rv, ru, by simp [hvn, hRv], by simp [hun, hRu], hlt⟩
    · intro v r hv
      by_cases hvn : v = neighbor
      · simp only [hvn, if_pos rfl] at hv
        injection hv with hv
        omega
      · simp only [hvn, if_neg, if_false] at hv
        exact hR.rank_bound v r hv
    · intro v
      rw [hV]
      by_cases hvn : v = neighbor <;> simp [hvn, hiff v]
    · rw [hV]
      simp [hstart]
    · intro q hq
      rw [hO] at hq
      rw [hV]
      simp only [List.mem_append, List.mem_singleton] at hq
      rcases hq with hq | rfl
      · obtain ⟨h1, h2⟩ := hqueue q hq
        exact ⟨by simp [h1], h2⟩
      · exact ⟨by simp, hw⟩
    · simp only [if_neg hne_cur.symm]
      exact hcur

lemma bfs_visit_fold {gm : GridMap} {start current : Pos} {K rc : Nat} :
    ∀ (L : List Pos) (st : PathFinder.BfsState) (R : Pos → Option Nat),
      (∀ nb ∈ L, nb ∈ gm.get_neighbors current.1 current.2) →
      CFInv gm start st.came_from R (K + 1) →
      (∀ v, (R v).isSome ↔ st.visited v = true) →
      st.visited start = true →
      (∀ q ∈ st.queue, st.visited q = true ∧ gm.is_walkable q.1 q.2 = true) →
      R current = some rc → rc ≤ K →
      gm.is_walkable current.1 current.2 = true →
      BfsInv gm start (K + 1)
        (L.foldl (PathFinder.bfs_relax gm current) st) := by
  intro L
  induction L with
  | nil => intro st R _ hR hiff hstart hqueue _ _ _; exact ⟨R, hR, hiff, hstart, hqueue⟩
  | cons nb L ih =>
    intro st R hL hR hiff hstart hqueue hcur hrc hwalk
    simp only [List.foldl_cons]
    obtain ⟨Q, hQ, hQiff, hQstart, hQqueue, hQcur⟩ :=
      bfs_relax_inv (hL nb (by simp)) hR hiff hstart hqueue hcur hrc hwalk
    exact ih _ Q (fun x hx => hL x (by simp [hx])) hQ hQiff hQstart hQqueue hQcur hrc hwalk

lemma bfs_visit_inv {gm : GridMap} {start current : Pos} {K : Nat}
    {st : PathFinder.BfsState} (hinv : BfsInv gm start K st)
    (hvis : st.visited current = true)
    (hwalk : gm.is_walkable current.1 current.2 = true) :
    BfsInv gm start (K + 1) (PathFinder.bfs_visit gm current st) := by
  obtain ⟨R, hR, hiff, hstart, hqueue⟩ := hinv
  obtain ⟨rc, hrc⟩ := Option.isSome_iff_exists.mp ((hiff current).mpr hvis)
  have hrcK : rc ≤ K := hR.rank_bound _ _ hrc
  exact bfs_visit_fold _ st R (fun nb h => h) (hR.mono (Nat.le_succ K)) hiff hstart
    hqueue hrc hrcK hwalk

lemma bfs_loop_valid {gm : GridMap} {start goal : Pos} {F : Nat} :
    ∀ (fuel K : Nat) (st : PathFinder.BfsState),
      BfsInv gm start K st → K + fuel ≤ F →
      ∀ p, PathFinder.bfs_loop gm goal F fuel st = some p →
        p.head? = some start ∧ p.getLast? = some goal ∧ List.Chain' card_step p ∧
        ∀ q ∈ p, gm.is_walkable q.1 q.2 = true := by
  intro fuel
  induction fuel with
  | zero =>
    intro K st _ _ p h
    simp [PathFinder.bfs_loop] at h
  | succ f ih =>
    intro K st hinv hF p h
    obtain ⟨R, hR, hiff, hstart, hqueue⟩ := hinv
    unfold PathFinder.bfs_loop at h
    cases hq : st.queue with
    | nil => rw [hq] at h; simp at h
    | cons current rest =>
      rw [hq] at h
      dsimp only [] at h
      obtain ⟨hvis, hwalk⟩ := hqueue current (by rw [hq]; simp)
      obtain ⟨rc, hrc⟩ := Option.isSome_iff_exists.mp ((hiff current).mpr hvis)
      have hrcK : rc ≤ K := hR.rank_bound _ _ hrc
      by_cases hgoal : current = goal
      case pos =>
        rw [if_pos hgoal, hgoal] at h
        injection h with h1
        subst h1
        have hrec := reconstructAux_valid hR rc F goal []
          (hgoal ▸ hrc) (by omega) (hgoal ▸ hwalk) (List.chain'_singleton goal)
          (by intro q hq; simp at hq)
        unfold PathFinder.reconstruct_path
        refine ⟨hrec.1, ?_, hrec.2.1, hrec.2.2.1⟩
        rw [hrec.2.2.2]
        simp
      case neg =>
        rw [if_neg hgoal] at h
        have hinv' : BfsInv gm start (K + 1)
            (PathFinder.bfs_visit gm current { st with queue := rest }) :=
          bfs_visit_inv
            ⟨R, hR, hiff, hstart, fun x hx => hqueue x (by rw [hq]; simp [hx])⟩
            hvis hwalk
        exact ih (K + 1) _ hinv' (by omega) p h

lemma find_path_bfs_valid {pf : PathFinder} {start goal : Pos}
    {p : List Pos} (h : PathFinder.find_path_bfs pf start goal = some p) :
    p.head? = some start ∧ p.getLast? = some goal ∧ List.Chain' card_step p ∧
    ∀ q ∈ p, pf.grid_map.is_walkable q.1 q.2 = true := by
  unfold PathFinder.find_path_bfs at h
  by_cases h1 : pf.grid_map.is_valid_position start.1 start.2 = true
  case neg => simp [h1] at h
  case pos =>
  by_cases h2 : pf.grid_map.is_valid_position goal.1 goal.2 = true
  case neg => simp [h1, h2] at h
  case pos =>
  by_cases h3 : pf.grid_map.is_walkable start.1 start.2 = true
  case neg => simp [h1, h2, h3] at h
  case pos =>
  by_cases h4 : pf.grid_map.is_walkable goal.1 goal.2 = true
  case neg => simp [h1, h2, h3, h4] at h
  case pos =>
    simp only [h1, h2, h3, h4, not_true, if_neg, if_false, not_false_iff] at h
    have hinv0 : BfsInv pf.grid_map start 0
        { queue := [start]
          came_from := fun _ => none
          visited := fun q => q = start } := by
      refine ⟨fun q => if q = start then some 0 else none, ⟨?_, ?_, ?_, ?_, ?_⟩, ?_, ?_, ?_⟩
      · simp
      · rfl
      · intro v hv
        by_cases hvs : v = start
        · exact Or.inl hvs
        · simp [hvs] at hv
      · intro v u hvu
        exact absurd hvu (by simp)
      · intro v r hv
        by_cases hvs : v = start
        · simp [hvs] at hv; omega
        · simp [hvs] at hv
      · intro v
        by_cases hvs : v = start <;> simp [hvs]
      · simp
      · intro q hq
        simp only [List.mem_singleton] at hq
        subst hq
        exact ⟨by simp, h3⟩
    exact bfs_loop_valid (PathFinder.search_fuel pf.grid_map) 0 _ hinv0 (by omega) p h

/-- C2: for every grid, start, goal, algorithm selector and heuristic
selector, whenever run_pathfinding_with_stats returns a path, the path
starts at start, ends at goal, moves one cardinal step at a time, and
every position on it is in bounds and walkable. -/
theorem path_validity (pf : PathFinder) (start goal : Pos)
    (algorithm heuristic_type : String) (t : ℚ) (p : List Pos)
    (h : (PathFinder.run_pathfinding_with_stats pf start goal
        algorithm heuristic_type t).1.path = some p) :
    p.head? = some start ∧ p.getLast? = some goal ∧ List.Chain' card_step p ∧
    ∀ q ∈ p, pf.grid_map.is_walkable q.1 q.2 = true := by
  have hc : (PathFinder.choose_algorithm pf start goal algorithm heuristic_type t).1 =
      some p := h
  unfold PathFinder.choose_algorithm at hc
  by_cases ha : algorithm = "dijkstra"
  · rw [if_pos ha] at hc
    exact find_path_dijkstra_valid hc
  · rw [if_neg ha] at hc
    by_cases hg : algorithm = "greedy"
    · rw [if_pos hg] at hc
      exact find_path_greedy_valid hc
    · rw [if_neg hg] at hc
      by_cases hb : algorithm = "bfs"
      · rw [if_pos hb] at hc
        exact find_path_bfs_valid hc
      · rw [if_neg hb] at hc
        exact find_path_astar_valid hc

/-- Witness for C2: the A* search on a fresh 2 by 2 grid from (0,0) to
(0,1) returns the two-cell path, and the theorem applies to it. -/
theorem path_validity_witness :
    (PathFinder.run_pathfinding_with_stats (PathFinder.init (GridMap.init 2 2))
        (0, 0) (0, 1) "astar" "manhattan" 0).1.path =
      some [((0 : Int), (0 : Int)), (0, 1)] ∧
    ([((0 : Int), (0 : Int)), (0, 1)].head? = some ((0 : Int), (0 : Int)) ∧
     [((0 : Int), (0 : Int)), (0, 1)].getLast? = some ((0 : Int), (1 : Int)) ∧
     List.Chain' card_step [((0 : Int), (0 : Int)), (0, 1)] ∧
     ∀ q ∈ [((0 : Int), (0 : Int)), (0, 1)],
       (PathFinder.init (GridMap.init 2 2)).grid_map.is_walkable q.1 q.2 = true) :=
  ⟨by decide, path_validity (PathFinder.init (GridMap.init 2 2)) (0, 0) (0, 1)
    "astar" "manhattan" 0 [(0, 0), (0, 1)] (by decide)⟩

/-- Counterexample to C3: on a failing precondition the search does not
record a pathfinding_time of 0 (the A* early return keeps the stale
value 5 from a previous call), and find_path_bfs does not reset
visited_nodes to 0 (the bfs run keeps the stale value 7). -/
theorem precondition_stats_counterexample :
    (PathFinder.find_path_astar ⟨GridMap.init 2 2, 7, 5⟩ (-1, 0) (0, 0)
      "manhattan" 0).1 = none ∧
    (PathFinder.find_path_astar ⟨GridMap.init 2 2, 7, 5⟩ (-1, 0) (0, 0)
      "manhattan" 0).2.pathfinding_time = 5 ∧
    (PathFinder.run_pathfinding_with_stats ⟨GridMap.init 2 2, 7, 5⟩ (-1, 0) (0, 0)
      "bfs" "manhattan" 0).1.visited_nodes = 7 := by
  refine ⟨rfl, rfl, rfl⟩

/-- C3 (amended): when start or goal is out of bounds or not walkable,
find_path_astar, find_path_dijkstra and find_path_greedy_best_first
return no path with visited_nodes reset to 0 and every other field of
the engine (including pathfinding_time) unchanged, and find_path_bfs
returns no path without touching the engine at all. -/
theorem precondition_short_circuit (pf : PathFinder) (start goal : Pos)
    (ht : String) (t : ℚ)
    (h : pf.grid_map.is_valid_position start.1 start.2 = false ∨
         pf.grid_map.is_valid_position goal.1 goal.2 = false ∨
         pf.grid_map.is_walkable start.1 start.2 = false ∨
         pf.grid_map.is_walkable goal.1 goal.2 = false) :
    PathFinder.find_path_astar pf start goal ht t =
      (none, { pf with visited_nodes := 0 }) ∧
    PathFinder.find_path_dijkstra pf start goal t =
      (none, { pf with visited_nodes := 0 }) ∧
    PathFinder.find_path_greedy_best_first pf start goal ht t =
      (none, { pf with visited_nodes := 0 }) ∧
    PathFinder.find_path_bfs pf start goal = none := by
  refine ⟨?_, ?_, ?_, ?_⟩
  · unfold PathFinder.find_path_astar
    split_ifs with h1 h2 h3 h4 <;>
      first
        | rfl
        | (exfalso; rcases h with h | h | h | h <;> simp_all)
  · unfold PathFinder.find_path_dijkstra
    split_ifs with h1 h2 h3 h4 <;>
      first
        | rfl
        | (exfalso; rcases h with h | h | h | h <;> simp_all)
  · unfold PathFinder.find_path_greedy_best_first
    split_ifs with h1 h2 h3 h4 <;>
      first
        | rfl
        | (exfalso; rcases h with h | h | h | h <;> simp_all)
  · unfold PathFinder.find_path_bfs
    split_ifs with h1 h2 h3 h4 <;>
      first
        | rfl
        | (exfalso; rcases h with h | h | h | h <;> simp_all)

/-- Witness for C3 at a concrete engine with stale statistics and an
out-of-bounds start. -/
theorem precondition_short_circuit_witness :
    (GridMap.init 2 2).is_valid_position (-1) 0 = false ∧
    (PathFinder.find_path_astar ⟨GridMap.init 2 2, 7, 5⟩ (-1, 0) (0, 0) "manhattan" 0 =
       (none, ⟨GridMap.init 2 2, 0, 5⟩) ∧
     PathFinder.find_path_dijkstra ⟨GridMap.init 2 2, 7, 5⟩ (-1, 0) (0, 0) 0 =
       (none, ⟨GridMap.init 2 2, 0, 5⟩) ∧
     PathFinder.find_path_greedy_best_first ⟨GridMap.init 2 2, 7, 5⟩ (-1, 0) (0, 0)
       "manhattan" 0 = (none, ⟨GridMap.init 2 2, 0, 5⟩) ∧
     PathFinder.find_path_bfs ⟨GridMap.init 2 2, 7, 5⟩ (-1, 0) (0, 0) = none) :=
  ⟨by decide, precondition_short_circuit ⟨GridMap.init 2 2, 7, 5⟩ (-1, 0) (0, 0)
    "manhattan" 0 (Or.inl (by decide))⟩

/-- Counterexample to C4: a position popped while absent from the
mirror set (the hash function is constantly false) is nevertheless
counted as visited and expanded, as the neighbor pushes show. -/
theorem stale_pop_counterexample :
    (PathFinder.astar_step (GridMap.init 2 2) (1, 1) "manhattan" 10 (0, 0)
      { open_set := []
        counter := 1
        came_from := fun _ => none
        g_score := fun p => if p = ((0 : Int), (0 : Int)) then some 0 else none
        f_score := fun _ => none
        open_set_hash := fun _ => false
        visited_nodes := 0 }).1.visited_nodes = 1 ∧
    (PathFinder.astar_step (GridMap.init 2 2) (1, 1) "manhattan" 10 (0, 0)
      { open_set := []
        counter := 1
        came_from := fun _ => none
        g_score := fun p => if p = ((0 : Int), (0 : Int)) then some 0 else none
        f_score := fun _ => none
        open_set_hash := fun _ => false
        visited_nodes := 0 }).1.open_set.length = 2 := by
  exact ⟨rfl, rfl⟩

/-- C4 (amended): neither search skips a popped position that is absent
from the mirror set; even then the position is counted as visited,
goal-tested, and, when it is not the goal, its neighbors are expanded. -/
theorem popped_position_never_skipped (gm : GridMap) (goal : Pos) (ht : String)
    (rf : Nat) (current : Pos)
    (st : PathFinder.AstarState) (std : PathFinder.DijkstraState)
    (h : st.open_set_hash current = false)
    (hd : std.open_set_hash current = false) :
    ((PathFinder.astar_step gm goal ht rf current st).2 =
        if current = goal then
          some (PathFinder.reconstruct_path st.came_from current rf)
        else none) ∧
    (current = goal →
      (PathFinder.astar_step gm goal ht rf current st).1.visited_nodes =
        st.visited_nodes + 1) ∧
    (current ≠ goal →
      (PathFinder.astar_step gm goal ht rf current st).1 =
        PathFinder.astar_visit gm goal ht current
          { st with visited_nodes := st.visited_nodes + 1 }) ∧
    ((PathFinder.dijkstra_step gm goal rf current std).2 =
        if current = goal then
          some (PathFinder.reconstruct_path std.came_from current rf)
        else none) ∧
    (current = goal →
      (PathFinder.dijkstra_step gm goal rf current std).1.visited_nodes =
        std.visited_nodes + 1) ∧
    (current ≠ goal →
      (PathFinder.dijkstra_step gm goal rf current std).1 =
        PathFinder.dijkstra_visit gm current
          { std with visited_nodes := std.visited_nodes + 1 }) := by
  refine ⟨astar_step_snd gm goal ht rf current st, ?_, ?_,
    dijkstra_step_snd gm goal rf current std, ?_, ?_⟩
  · intro hg
    subst hg
    unfold PathFinder.astar_step
    simp [h]
  · intro hg
    unfold PathFinder.astar_step
    simp [h, hg]
  · intro hg
    subst hg
    unfold PathFinder.dijkstra_step
    simp [hd]
  · intro hg
    unfold PathFinder.dijkstra_step
    simp [hd, hg]

/-- Witness for C4 on a concrete state whose mirror set is empty. -/
theorem popped_position_never_skipped_witness :
    ((fun _ : Pos => false) (0, 0) = false) ∧
    (((PathFinder.astar_step (GridMap.init 2 2) (1, 1) "manhattan" 10 (0, 0)
        { open_set := []
          counter := 1
          came_from := fun _ => none
          g_score := fun p => if p = ((0 : Int), (0 : Int)) then some 0 else none
          f_score := fun _ => none
          open_set_hash := fun _ => false
          visited_nodes := 0 }).2 =
        if ((0 : Int), (0 : Int)) = ((1 : Int), (1 : Int)) then
          some (PathFinder.reconstruct_path (fun _ => none) (0, 0) 10)
        else none) ∧
     (((0 : Int), (0 : Int)) = ((1 : Int), (1 : Int)) →
       (PathFinder.astar_step (GridMap.init 2 2) (1, 1) "manhattan" 10 (0, 0)
        { open_set := []
          counter := 1
          came_from := fun _ => none
          g_score := fun p => if p = ((0 : Int), (0 : Int)) then some 0 else none
          f_score := fun _ => none
          open_set_hash := fun _ => false
          visited_nodes := 0 }).1.visited_nodes = 0 + 1) ∧
     (((0 : Int), (0 : Int)) ≠ ((1 : Int), (1 : Int)) →
       (PathFinder.astar_step (GridMap.init 2 2) (1, 1) "manhattan" 10 (0, 0)
        { open_set := []
          counter := 1
          came_from := fun _ => none
          g_score := fun p => if p = ((0 : Int), (0 : Int)) then some 0 else none
          f_score := fun _ => none
          open_set_hash := fun _ => false
          visited_nodes := 0 }).1 =
        PathFinder.astar_visit (GridMap.init 2 2) (1, 1) "manhattan" (0, 0)
          { open_set := []
            counter := 1
            came_from := fun _ => none
            g_score := fun p => if p = ((0 : Int), (0 : Int)) then some 0 else none
            f_score := fun _ => none
            open_set_hash := fun _ => false
            visited_nodes := 0 + 1 }) ∧
     ((PathFinder.dijkstra_step (GridMap.init 2 2) (1, 1) 10 (0, 0)
        { open_set := []
          counter := 1
          came_from := fun _ => none
          cost := fun p => if p = ((0 : Int), (0 : Int)) then some 0 else none
          open_set_hash := fun _ => false
          visited_nodes := 0 }).2 =
        if ((0 : Int), (0 : Int)) = ((1 : Int), (1 : Int)) then
          some (PathFinder.reconstruct_path (fun _ => none) (0, 0) 10)
        else none) ∧
     (((0 : Int), (0 : Int)) = ((1 : Int), (1 : Int)) →
       (PathFinder.dijkstra_step (GridMap.init 2 2) (1, 1) 10 (0, 0)
        { open_set := []
          counter := 1
          came_from := fun _ => none
          cost := fun p => if p = ((0 : Int), (0 : Int)) then some 0 else none
          open_set_hash := fun _ => false
          visited_nodes := 0 }).1.visited_nodes = 0 + 1) ∧
     (((0 : Int), (0 : Int)) ≠ ((1 : Int), (1 : Int)) →
       (PathFinder.dijkstra_step (GridMap.init 2 2) (1, 1) 10 (0, 0)
        { open_set := []
          counter := 1
          came_from := fun _ => none
          cost := fun p => if p = ((0 : Int), (0 : Int)) then some 0 else none
          open_set_hash := fun _ => false
          visited_nodes := 0 }).1 =
        PathFinder.dijkstra_visit (GridMap.init 2 2) (0, 0)
          { open_set := []
            counter := 1
            came_from := fun _ => none
            cost := fun p => if p = ((0 : Int), (0 : Int)) then some 0 else none
            open_set_hash := fun _ => false
            visited_nodes := 0 + 1 })) :=
  ⟨rfl, popped_position_never_skipped (GridMap.init 2 2) (1, 1) "manhattan" 10 (0, 0)
    { open_set := []
      counter := 1
      came_from := fun _ => none
      g_score := fun p => if p = ((0 : Int), (0 : Int)) then some 0 else none
      f_score := fun _ => none
      open_set_hash := fun _ => false
      visited_nodes := 0 }
    { open_set := []
      counter := 1
      came_from := fun _ => none
      cost := fun p => if p = ((0 : Int), (0 : Int)) then some 0 else none
      open_set_hash := fun _ => false
      visited_nodes := 0 }
    rfl rfl⟩

/-- Counterexample to C6: on a 2 by 2 grid whose two off-diagonal cells
are fenced, the search from (0,0) to (1,1) fails and the reported
route_length is none, not 0. -/
theorem route_length_failed_counterexample :
    (PathFinder.run_pathfinding_with_stats
      (PathFinder.init ((((GridMap.init 2 2).set_tile 0 1 "F").2.set_tile 1 0 "F").2))
      (0, 0) (1, 1) "astar" "manhattan" 0).1.path = none ∧
    (PathFinder.run_pathfinding_with_stats
      (PathFinder.init ((((GridMap.init 2 2).set_tile 0 1 "F").2.set_tile 1 0 "F").2))
      (0, 0) (1, 1) "astar" "manhattan" 0).1.route_length = none := by
  exact ⟨rfl, rfl⟩

/-- C6 (amended): get_path_length is the length minus one on a nonempty
path and 0 on the empty path, while the route_length that the statistics
report for a failed search (absent path) is none, not 0. -/
theorem route_length_spec (p : List Pos) (pf : PathFinder) (start goal : Pos)
    (alg ht : String) (t : ℚ) (hp : p ≠ [])
    (hfail : (PathFinder.run_pathfinding_with_stats pf start goal alg ht t).1.path =
      none) :
    PathFinder.get_path_length p = p.length - 1 ∧
    PathFinder.get_path_length [] = 0 ∧
    (PathFinder.run_pathfinding_with_stats pf start goal alg ht t).1.route_length =
      none := by
  have h3 : (PathFinder.choose_algorithm pf start goal alg ht t).1 = none := hfail
  refine ⟨?_, rfl, ?_⟩
  · unfold PathFinder.get_path_length
    rw [if_pos hp]
  · simp only [PathFinder.run_pathfinding_with_stats]
    rw [h3]

/-- Witness for C6 on a concrete nonempty path and the fenced 2 by 2
grid of the counterexample. -/
theorem route_length_spec_witness :
    ([((0 : Int), (0 : Int)), (0, 1)] ≠ ([] : List Pos)) ∧
    (PathFinder.run_pathfinding_with_stats
      (PathFinder.init ((((GridMap.init 2 2).set_tile 0 1 "F").2.set_tile 1 0 "F").2))
      (0, 0) (1, 1) "dijkstra" "manhattan" 0).1.path = none ∧
    (PathFinder.get_path_length [((0 : Int), (0 : Int)), (0, 1)] =
        [((0 : Int), (0 : Int)), (0, 1)].length - 1 ∧
      PathFinder.get_path_length [] = 0 ∧
      (PathFinder.run_pathfinding_with_stats
        (PathFinder.init ((((GridMap.init 2 2).set_tile 0 1 "F").2.set_tile 1 0 "F").2))
        (0, 0) (1, 1) "dijkstra" "manhattan" 0).1.route_length = none) :=
  ⟨by decide, by decide,
   route_length_spec [((0 : Int), (0 : Int)), (0, 1)]
     (PathFinder.init ((((GridMap.init 2 2).set_tile 0 1 "F").2.set_tile 1 0 "F").2))
     (0, 0) (1, 1) "dijkstra" "manhattan" 0 (by decide) (by decide)⟩

lemma find_path_astar_grid (pf : PathFinder) (s g : Pos) (ht : String) (t : ℚ) :
    (PathFinder.find_path_astar pf s g ht t).2.grid_map = pf.grid_map := by
  unfold PathFinder.find_path_astar
  split_ifs <;> rfl

lemma find_path_dijkstra_grid (pf : PathFinder) (s g : Pos) (t : ℚ) :
    (PathFinder.find_path_dijkstra pf s g t).2.grid_map = pf.grid_map := by
  unfold PathFinder.find_path_dijkstra
  split_ifs <;> rfl

lemma find_path_greedy_grid (pf : PathFinder) (s g : Pos) (ht : String) (t : ℚ) :
    (PathFinder.find_path_greedy_best_first pf s g ht t).2.grid_map = pf.grid_map := by
  unfold PathFinder.find_path_greedy_best_first
  split_ifs <;> rfl

lemma choose_algorithm_grid (pf : PathFinder) (s g : Pos) (alg ht : String) (t : ℚ) :
    (PathFinder.choose_algorithm pf s g alg ht t).2.grid_map = pf.grid_map := by
  unfold PathFinder.choose_algorithm
  split_ifs
  · exact find_path_dijkstra_grid pf s g t
  · exact find_path_greedy_grid pf s g ht t
  · rfl
  · exact find_path_astar_grid pf s g ht t

lemma find_path_astar_congr {pf1 pf2 : PathFinder} (hgm : pf1.grid_map = pf2.grid_map)
    (s g : Pos) (ht : String) (t : ℚ) :
    (PathFinder.find_path_astar pf1 s g ht t).1 =
      (PathFinder.find_path_astar pf2 s g ht t).1 := by
  unfold PathFinder.find_path_astar
  rw [hgm]
  split_ifs <;> rfl

lemma find_path_dijkstra_congr {pf1 pf2 : PathFinder} (hgm : pf1.grid_map = pf2.grid_map)
    (s g : Pos) (t : ℚ) :
    (PathFinder.find_path_dijkstra pf1 s g t).1 =
      (PathFinder.find_path_dijkstra pf2 s g t).1 := by
  unfold PathFinder.find_path_dijkstra
  rw [hgm]
  split_ifs <;> rfl

lemma find_path_greedy_congr {pf1 pf2 : PathFinder} (hgm : pf1.grid_map = pf2.grid_map)
    (s g : Pos) (ht : String) (t : ℚ) :
    (PathFinder.find_path_greedy_best_first pf1 s g ht t).1 =
      (PathFinder.find_path_greedy_best_first pf2 s g ht t).1 := by
  unfold PathFinder.find_path_greedy_best_first
  rw [hgm]
  split_ifs <;> rfl

lemma find_path_bfs_congr {pf1 pf2 : PathFinder} (hgm : pf1.grid_map = pf2.grid_map)
    (s g : Pos) :
    PathFinder.find_path_bfs pf1 s g = PathFinder.find_path_bfs pf2 s g := by
  unfold PathFinder.find_path_bfs
  rw [hgm]

lemma choose_algorithm_congr {pf1 pf2 : PathFinder} (hgm : pf1.grid_map = pf2.grid_map)
    (s g : Pos) (alg ht : String) (t : ℚ) :
    (PathFinder.choose_algorithm pf1 s g alg ht t).1 =
      (PathFinder.choose_algorithm pf2 s g alg ht t).1 := by
  unfold PathFinder.choose_algorithm
  split_ifs
  · exact find_path_dijkstra_congr hgm s g t
  · exact find_path_greedy_congr hgm s g ht t
  · exact find_path_bfs_congr hgm s g
  · exact find_path_astar_congr hgm s g ht t

lemma find_tilled_tiles_mem (gm : GridMap) (q : Pos) :
    q ∈ gm.find_tilled_tiles ↔
      ∃ r c : Nat, r < gm.rows ∧ c < gm.columns ∧ gm.tileAt r c = "T" ∧
        q = ((r : Int), (c : Int)) := by
  unfold GridMap.find_tilled_tiles
  simp only [List.mem_flatMap, List.mem_filterMap, List.mem_range,
    Option.ite_none_right_eq_some, Option.some_inj]
  constructor
  · rintro ⟨r, hr, c, hc, ht, rfl⟩
    exact ⟨r, c, hr, hc, ht, rfl⟩
  · rintro ⟨r, c, hr, hc, ht, rfl⟩
    exact ⟨r, hr, c, hc, ht, rfl⟩

lemma find_tilled_tiles_sorted (gm : GridMap) :
    gm.find_tilled_tiles.Pairwise row_major_lt := by
  unfold GridMap.find_tilled_tiles
  rw [List.pairwise_flatMap]
  constructor
  · intro r _
    rw [List.pairwise_filterMap]
    apply List.Pairwise.imp _ (List.pairwise_lt_range gm.columns)
    intro c c' hcc x hx y hy
    simp only [Option.mem_def, Option.ite_none_right_eq_some, Option.some_inj] at hx hy
    rw [← hx.2, ← hy.2]
    right
    exact ⟨rfl, Int.ofNat_lt.mpr hcc⟩
  · apply List.Pairwise.imp _ (List.pairwise_lt_range gm.rows)
    intro r r' hrr x hx y hy
    simp only [List.mem_filterMap, List.mem_range, Option.ite_none_right_eq_some,
      Option.some_inj] at hx hy
    obtain ⟨c, _, _, hxe⟩ := hx
    obtain ⟨c', _, _, hye⟩ := hy
    rw [← hxe, ← hye]
    left
    exact Int.ofNat_lt.mpr hrr

lemma select_step_none_iff (P : Pos → Option (List Pos))
    (acc : Option (Pos × List Pos × Nat)) (g : Pos) :
    select_step P acc g = none ↔
      acc = none ∧ ∀ p, P g = some p → p = [] := by
  unfold select_step
  cases hp : P g with
  | none =>
    simp [hp]
  | some p =>
    by_cases he : p = []
    · subst he
      simp
    · cases acc with
      | none =>
        simp [he]
      | some q =>
        by_cases hlt : p.length < q.2.2 <;> simp [he, hlt]

lemma select_step_cases (P : Pos → Option (List Pos))
    (acc : Option (Pos × List Pos × Nat)) (g : Pos) :
    (select_step P acc g = acc ∧
      ∀ p, P g = some p → p ≠ [] → ∃ q, acc = some q ∧ q.2.2 ≤ p.length)
  ∨ (∃ p, P g = some p ∧ p ≠ [] ∧ select_step P acc g = some (g, p, p.length) ∧
      ∀ q, acc = some q → p.length < q.2.2) := by
  unfold select_step
  cases hp : P g with
  | none => left; simp
  | some p =>
    by_cases he : p = []
    · subst he
      left
      simp
    · cases acc with
      | none =>
        right
        exact ⟨p, rfl, he, by simp [he], by simp⟩
      | some q =>
        by_cases hlt : p.length < q.2.2
        · right
          refine ⟨p, rfl, he, by simp [he, hlt], ?_⟩
          rintro q' hq'
          injection hq' with hq'
          subst hq'
          exact hlt
        · left
          refine ⟨by simp [he, hlt], ?_⟩
          rintro p' hp' _
          injection hp' with hp'
          subst hp'
          exact ⟨q, rfl, by omega⟩

lemma select_fold_some (P : Pos → Option (List Pos)) :
    ∀ (ts : List Pos) (q : Pos × List Pos × Nat),
      ∃ q', ts.foldl (select_step P) (some q) = some q' := by
  intro ts
  induction ts with
  | nil => intro q; exact ⟨q, rfl⟩
  | cons g ts ih =>
    intro q
    simp only [List.foldl_cons]
    rcases select_step_cases P (some q) g with ⟨heq, _⟩ | ⟨p, _, _, heq, _⟩
    · rw [heq]; exact ih q
    · rw [heq]; exact ih (g, p, p.length)

lemma select_fold_none_iff (P : Pos → Option (List Pos)) :
    ∀ (ts : List Pos) (acc : Option (Pos × List Pos × Nat)),
      ts.foldl (select_step P) acc = none ↔
        acc = none ∧ ∀ g ∈ ts, ∀ p, P g = some p → p = [] := by
  intro ts
  induction ts with
  | nil => intro acc; simp
  | cons g ts ih =>
    intro acc
    simp only [List.foldl_cons, ih, select_step_none_iff, List.forall_mem_cons, and_assoc]

lemma select_fold_some_char (P : Pos → Option (List Pos)) :
    ∀ (ts : List Pos) (acc : Option (Pos × List Pos × Nat)) (g : Pos) (p : List Pos)
      (n : Nat),
      (∀ a b m, acc = some (a, b, m) → m = b.length ∧ b ≠ []) →
      ts.foldl (select_step P) acc = some (g, p, n) →
      n = p.length ∧ p ≠ [] ∧
      ((acc = some (g, p, n) ∧ ∀ g' ∈ ts, ∀ p', P g' = some p' → p' ≠ [] →
          p.length ≤ p'.length)
       ∨ (P g = some p ∧ ∃ pre post, ts = pre ++ g :: post ∧
            (∀ q, acc = some q → p.length < q.2.2) ∧
            (∀ g' ∈ pre, ∀ p', P g' = some p' → p' ≠ [] → p.length < p'.length) ∧
            (∀ g' ∈ post, ∀ p', P g' = some p' → p' ≠ [] → p.length ≤ p'.length))) := by
  intro ts
  induction ts with
  | nil =>
    intro acc g p n hacc h
    simp only [List.foldl_nil] at h
    obtain ⟨hn, hne⟩ := hacc g p n h
    exact ⟨hn, hne, Or.inl ⟨h, by simp⟩⟩
  | cons g0 ts ih =>
    intro acc g p n hacc h
    simp only [List.foldl_cons] at h
    rcases select_step_cases P acc g0 with ⟨heq, hfail⟩ | ⟨p0, hp0, hp0ne, heq, hbeat⟩
    · -- the head did not change the accumulator
      rw [heq] at h
      obtain ⟨hn, hne, hcase⟩ := ih acc g p n hacc h
      refine ⟨hn, hne, ?_⟩
      rcases hcase with ⟨hacc_eq, hpost⟩ | ⟨hPg, pre, post, hsplit, haccq, hpre, hpost⟩
      · left
        refine ⟨hacc_eq, ?_⟩
        rw [List.forall_mem_cons]
        refine ⟨?_, hpost⟩
        intro p' hp' hp'ne
        obtain ⟨q, hq, hqle⟩ := hfail p' hp' hp'ne
        rw [hacc_eq] at hq
        injection hq with hq
        have hle : n ≤ p'.length := by rw [← hq] at hqle; exact hqle
        omega
      · right
        refine ⟨hPg, g0 :: pre, post, by rw [hsplit]; rfl, haccq, ?_, hpost⟩
        rw [List.forall_mem_cons]
        refine ⟨?_, hpre⟩
        intro p' hp' hp'ne
        obtain ⟨q, hq, hqle⟩ := hfail p' hp' hp'ne
        have := haccq q hq
        omega
    · -- the head became the new best
      rw [heq] at h
      have hacc1 : ∀ a b m, (some (g0, p0, p0.length) :
          Option (Pos × List Pos × Nat)) = some (a, b, m) → m = b.length ∧ b ≠ [] := by
        rintro a b m hm
        simp only [Option.some.injEq, Prod.mk.injEq] at hm
        obtain ⟨h1, h2, h3⟩ := hm
        subst h2
        subst h3
        exact ⟨rfl, hp0ne⟩
      obtain ⟨hn, hne, hcase⟩ := ih (some (g0, p0, p0.length)) g p n hacc1 h
      refine ⟨hn, hne, ?_⟩
      rcases hcase with ⟨hacc_eq, hpost⟩ | ⟨hPg, pre, post, hsplit, haccq, hpre, hpost⟩
      · -- it survived the rest of the scan
        simp only [Option.some.injEq, Prod.mk.injEq] at hacc_eq
        obtain ⟨h1, h2, h3⟩ := hacc_eq
        subst h1
        subst h2
        right
        refine ⟨hp0, [], ts, rfl, ?_, by simp, hpost⟩
        intro q hq
        have h4 : p0.length < q.2.2 := hbeat q hq
        exact h4
      · -- it was later replaced by a strictly shorter path
        right
        refine ⟨hPg, g0 :: pre, post, by rw [hsplit]; rfl, ?_, ?_, hpost⟩
        · intro q hq
          have h1 : p.length < p0.length := haccq (g0, p0, p0.length) rfl
          have h2 : p0.length < q.2.2 := hbeat q hq
          omega
        · rw [List.forall_mem_cons]
          refine ⟨?_, hpre⟩
          intro p' hp' hp'ne
          rw [hp0] at hp'
          injection hp' with hp'
          subst hp'
          exact haccq (g0, p0, p0.length) rfl

lemma nearest_fold_eq (pf : PathFinder) (start : Pos) (ht alg : String) (t : ℚ) :
    ∀ (ts : List Pos) (acc : Option (Pos × List Pos × Nat)) (pfX : PathFinder),
      pfX.grid_map = pf.grid_map →
      (ts.foldl
        (fun (a : Option (Pos × List Pos × Nat) × PathFinder) tilled_pos =>
          let s := PathFinder.choose_algorithm a.2 start tilled_pos alg ht t
          match s.1 with
          | some p =>
            if (!p.isEmpty && match a.1 with
                | none => true
                | some q => decide (p.length < q.2.2)) then
              (some (tilled_pos, p, p.length), s.2)
            else (a.1, s.2)
          | none => (a.1, s.2))
        (acc, pfX)).1 =
      ts.foldl
        (select_step fun g' => (PathFinder.choose_algorithm pf start g' alg ht t).1)
        acc := by
  intro ts
  induction ts with
  | nil => intro acc pfX hgm; rfl
  | cons g ts ih =>
    intro acc pfX hgm
    have hP : (PathFinder.choose_algorithm pf start g alg ht t).1 =
        (PathFinder.choose_algorithm pfX start g alg ht t).1 :=
      (choose_algorithm_congr hgm start g alg ht t).symm
    have hgrid : (PathFinder.choose_algorithm pfX start g alg ht t).2.grid_map =
        pf.grid_map := by rw [choose_algorithm_grid]; exact hgm
    have hstep :
        (fun (a : Option (Pos × List Pos × Nat) × PathFinder) tilled_pos =>
          let s := PathFinder.choose_algorithm a.2 start tilled_pos alg ht t
          match s.1 with
          | some p =>
            if (!p.isEmpty && match a.1 with
                | none => true
                | some q => decide (p.length < q.2.2)) then
              (some (tilled_pos, p, p.length), s.2)
            else (a.1, s.2)
          | none => (a.1, s.2)) (acc, pfX) g =
        (select_step (fun g' => (PathFinder.choose_algorithm pf start g' alg ht t).1)
           acc g,
         (PathFinder.choose_algorithm pfX start g alg ht t).2) := by
      dsimp only []
      unfold select_step
      dsimp only []
      rw [hP]
      cases hs : (PathFinder.choose_algorithm pfX start g alg ht t).1 with
      | none => rfl
      | some p =>
        by_cases hc : (!p.isEmpty && match acc with
            | none => true
            | some q => decide (p.length < q.2.2)) = true
        · simp only [hc, if_pos]
        · simp only [Bool.not_eq_true] at hc
          simp only [hc, Bool.false_eq_true, if_false]
    show (List.foldl
        (fun (a : Option (Pos × List Pos × Nat) × PathFinder) tilled_pos =>
          let s := PathFinder.choose_algorithm a.2 start tilled_pos alg ht t
          match s.1 with
          | some p =>
            if (!p.isEmpty && match a.1 with
                | none => true
                | some q => decide (p.length < q.2.2)) then
              (some (tilled_pos, p, p.length), s.2)
            else (a.1, s.2)
          | none => (a.1, s.2))
        ((fun (a : Option (Pos × List Pos × Nat) × PathFinder) tilled_pos =>
          let s := PathFinder.choose_algorithm a.2 start tilled_pos alg ht t
          match s.1 with
          | some p =>
            if (!p.isEmpty && match a.1 with
                | none => true
                | some q => decide (p.length < q.2.2)) then
              (some (tilled_pos, p, p.length), s.2)
            else (a.1, s.2)
          | none => (a.1, s.2)) (acc, pfX) g) ts).1 =
      List.foldl
        (select_step fun g' => (PathFinder.choose_algorithm pf start g' alg ht t).1)
        (select_step (fun g' => (PathFinder.choose_algorithm pf start g' alg ht t).1)
          acc g) ts
    rw [hstep]
    exact ih _ _ hgrid

lemma find_nearest_tilled_eq (pf : PathFinder) (start : Pos) (ht alg : String) (t : ℚ) :
    (PathFinder.find_nearest_tilled pf start ht alg t).1 =
      match pf.grid_map.find_tilled_tiles.foldl
        (select_step fun g' => (PathFinder.choose_algorithm pf start g' alg ht t).1)
        none with
      | some (g, p, _) => some (g, p)
      | none => none := by
  unfold PathFinder.find_nearest_tilled
  by_cases hts : pf.grid_map.find_tilled_tiles = []
  · rw [hts]
    simp
  · rw [if_neg hts,
      ← nearest_fold_eq pf start ht alg t pf.grid_map.find_tilled_tiles none pf rfl]
    dsimp only []
    generalize (pf.grid_map.find_tilled_tiles.foldl
        (fun (a : Option (Pos × List Pos × Nat) × PathFinder) tilled_pos =>
          let s := PathFinder.choose_algorithm a.2 start tilled_pos alg ht t
          match s.1 with
          | some p =>
            if (!p.isEmpty && match a.1 with
                | none => true
                | some q => decide (p.length < q.2.2)) then
              (some (tilled_pos, p, p.length), s.2)
            else (a.1, s.2)
          | none => (a.1, s.2))
        (none, pf)) = r
    obtain ⟨o, pf2⟩ := r
    cases o with
    | none => rfl
    | some b =>
      obtain ⟨g, p, n⟩ := b
      rfl

/-- C7: find_nearest_tilled enumerates exactly the tilled tiles of the
grid, in row-major ascending order; it returns none exactly when no
tilled tile has a nonempty path (no tilled tiles, or none reachable);
and when it returns a pair (g, p), p is the path the selected search
found for g, goals with no path were skipped, every earlier tilled goal
with a path has a strictly longer one (so the first-enumerated goal wins
ties) and every later tilled goal with a path has one at least as
long. -/
theorem find_nearest_tilled_spec (pf : PathFinder) (start : Pos) (ht alg : String)
    (t : ℚ) :
    (∀ q : Pos, q ∈ pf.grid_map.find_tilled_tiles ↔
      ∃ r c : Nat, r < pf.grid_map.rows ∧ c < pf.grid_map.columns ∧
        pf.grid_map.tileAt r c = "T" ∧ q = ((r : Int), (c : Int))) ∧
    pf.grid_map.find_tilled_tiles.Pairwise row_major_lt ∧
    ((PathFinder.find_nearest_tilled pf start ht alg t).1 = none ↔
      ∀ g ∈ pf.grid_map.find_tilled_tiles, ∀ p,
        (PathFinder.choose_algorithm pf start g alg ht t).1 = some p → p = []) ∧
    (∀ g p, (PathFinder.find_nearest_tilled pf start ht alg t).1 = some (g, p) →
      (PathFinder.choose_algorithm pf start g alg ht t).1 = some p ∧ p ≠ [] ∧
      ∃ pre post, pf.grid_map.find_tilled_tiles = pre ++ g :: post ∧
        (∀ g' ∈ pre, ∀ p',
          (PathFinder.choose_algorithm pf start g' alg ht t).1 = some p' → p' ≠ [] →
          p.length < p'.length) ∧
        (∀ g' ∈ post, ∀ p',
          (PathFinder.choose_algorithm pf start g' alg ht t).1 = some p' → p' ≠ [] →
          p.length ≤ p'.length)) := by
  refine ⟨find_tilled_tiles_mem pf.grid_map, find_tilled_tiles_sorted pf.grid_map,
    ?_, ?_⟩
  · rw [find_nearest_tilled_eq]
    rcases hsb : pf.grid_map.find_tilled_tiles.foldl
        (select_step fun g' => (PathFinder.choose_algorithm pf start g' alg ht t).1)
        none with _ | ⟨g1, p1, n1⟩
    · constructor
      · intro _
        exact ((select_fold_none_iff _ _ _).mp hsb).2
      · intro _
        rfl
    · constructor
      · intro h
        exact Option.noConfusion h
      · intro hall
        have : pf.grid_map.find_tilled_tiles.foldl
            (select_step fun g' => (PathFinder.choose_algorithm pf start g' alg ht t).1)
            none = none :=
          (select_fold_none_iff _ _ _).mpr ⟨rfl, hall⟩
        rw [hsb] at this
        exact absurd this (by simp)
  · intro g p hsome
    rw [find_nearest_tilled_eq] at hsome
    rcases hsb : pf.grid_map.find_tilled_tiles.foldl
        (select_step fun g' => (PathFinder.choose_algorithm pf start g' alg ht t).1)
        none with _ | ⟨g1, p1, n1⟩
    · rw [hsb] at hsome
      exact Option.noConfusion hsome
    · rw [hsb] at hsome
      simp only [Option.some.injEq, Prod.mk.injEq] at hsome
      obtain ⟨hg1, hp1⟩ := hsome
      subst hg1
      subst hp1
      obtain ⟨hn, hne, hcase⟩ := select_fold_some_char _ _ none g1 p1 n1
        (by rintro a b m ⟨⟩) hsb
      rcases hcase with ⟨habs, -⟩ | ⟨hPg, pre, post, hsplit, -, hpre, hpost⟩
      · exact absurd habs (by simp)
      · exact ⟨hPg, hne, pre, post, hsplit, hpre, hpost⟩
